import Mathlib

set_option maxRecDepth 4000

/-!
Shallow embedding of the orbital-simulator core (`src/simulator/src/lib.rs`
and `src/simulator/src/bodies.rs`).

Modelling decisions:
* `f64` is modelled as `ℚ`.  `f64::sqrt` and `f64::cbrt` are not rational,
  so the step functions take them as parameters `sq cbrt : ℚ → ℚ`; they only
  influence force magnitudes and merged radii, which the claims never inspect,
  so theorems quantify over them.
* `HashMap<usize, Kinemat>` is modelled as an association list
  `List (ℕ × Kinemat)`; iteration order is the list order (the Rust iteration
  order is unspecified, so this is one determinization).
* `VecDeque` is a `List` whose head is the front (oldest) element.
* Rust panics (out-of-range `Vec` indexing, the explicit `panic!` calls) are
  modelled by returning `none`.
-/

namespace Orbital

/-- Modelled 2D vector of f64 (`euclid` `Point2D`/`Vector2D`). -/
structure Vec2 where
  x : ℚ
  y : ℚ
  deriving DecidableEq, Repr

def Vec2.zero : Vec2 := ⟨0, 0⟩

instance : Add Vec2 := ⟨fun a b => ⟨a.x + b.x, a.y + b.y⟩⟩

/-- Vector times scalar. -/
def Vec2.smul (v : Vec2) (c : ℚ) : Vec2 := ⟨v.x * c, v.y * c⟩

/-- Vector divided by scalar. -/
def Vec2.sdiv (v : Vec2) (c : ℚ) : Vec2 := ⟨v.x / c, v.y / c⟩

/-- The representation of a body (`bodies.rs`, with the `name` and `immovable`
fields used by `lib.rs`). -/
structure Body where
  mass : ℚ
  radius : ℚ
  color : ℕ
  outline : ℕ
  name : String
  immovable : Bool
  deriving DecidableEq, Repr

/-- A Kinemat holds all the kinematic information about something. -/
structure Kinemat where
  pos : Vec2
  vel : Vec2
  deriving DecidableEq, Repr

def Kinemat.zero : Kinemat := ⟨Vec2.zero, Vec2.zero⟩

/-- Semi-implicit Euler step (`Kinemat::update`): `vel += acc*dt; pos += vel*dt`. -/
def Kinemat.update (k : Kinemat) (dt : ℚ) (acc : Vec2) : Kinemat :=
  let vel := k.vel + acc.smul dt
  ⟨k.pos + vel.smul dt, vel⟩

/-- An Orbiter is a combination of a Body and a Kinemat. -/
structure Orbiter where
  body : Body
  kinemat : Kinemat
  deriving DecidableEq, Repr

/-- What the solar system is up to (`SimulationMode`). -/
inductive SimulationMode where
  | Simulating : SimulationMode
  | LoadingSave : ℕ → SimulationMode
  deriving DecidableEq, Repr

/-- Association-list model of `HashMap<usize, α>`: first matching key wins. -/
def AList.lookup {α : Type} (k : ℕ) : List (ℕ × α) → Option α
  | [] => none
  | (k', v) :: rest => if k' = k then some v else AList.lookup k rest

/-- Does the map contain the key (`contains_key`)? -/
def AList.contains {α : Type} (k : ℕ) (m : List (ℕ × α)) : Bool :=
  (AList.lookup k m).isSome

/-- HashMap `insert`: replace the value at an existing key, else append. -/
def AList.insert {α : Type} (k : ℕ) (v : α) : List (ℕ × α) → List (ℕ × α)
  | [] => [(k, v)]
  | (k', v') :: rest =>
    if k' = k then (k, v) :: rest else (k', v') :: AList.insert k v rest

/-- HashMap `remove`: drop every entry with the key. -/
def AList.erase {α : Type} (k : ℕ) (m : List (ℕ × α)) : List (ℕ × α) :=
  m.filter (fun p => p.1 != k)

/-- The solar system state (`struct SolarSystem`).  `saves`' head is the
oldest entry (`VecDeque` front). -/
structure SolarSystem where
  bodies : List Body
  kinemats : List (ℕ × Kinemat)
  saves : List (List (ℕ × Kinemat))
  save_per : ℕ
  frames_elapsed : ℕ
  mode : SimulationMode
  deriving DecidableEq, Repr

def SAVE_EVERY : ℕ := 1000
def SAVE_COUNT : ℕ := 1000
def MIN_PULL_MASS : ℚ := 10 ^ 23
def MAX_PULL_DISTANCE : ℚ := 51 * 10 ^ 13
def GRAV_CONSTANT : ℚ := 6674 / 10 ^ 14

/-- Interpolate two colors with a weighted average of the masses
(`mix_colors`; the `as u32` cast truncates the nonnegative quotient). -/
def mix_colors (c1 : ℕ) (w1 : ℚ) (c2 : ℕ) (w2 : ℚ) : ℕ :=
  [0x0000ff, 0x00ff00, 0xff0000].foldl
    (fun wip_color mask =>
      let comp1 := c1 &&& mask
      let comp2 := c2 &&& mask
      let color := (((comp1 : ℚ) * w1 + (comp2 : ℚ) * w2) / (w1 + w2)).floor.toNat
      wip_color + (color &&& mask))
    0

/-- The merged `Body` built at the collision site inside `update`. -/
def mergeBody (cbrt : ℚ → ℚ) (body other_body : Body) : Body :=
  { mass := body.mass + other_body.mass
    radius := cbrt (body.radius ^ 3 + other_body.radius ^ 3)
    name := body.name ++ " & " ++ other_body.name
    color := mix_colors body.color body.mass other_body.color other_body.mass
    outline := mix_colors body.outline body.mass other_body.outline other_body.mass
    immovable := body.immovable || other_body.immovable }

/-- The merged `Kinemat` built at the collision site inside `update`:
mass-weighted only when the puller is movable and the other immovable,
otherwise `Kinemat::zero()`. -/
def mergeKinemat (body other_body : Body) (kmat other_kmat : Kinemat)
    (dx dy : ℚ) : Kinemat :=
  if !body.immovable && other_body.immovable then
    Kinemat.mk
      (kmat.pos + ((Vec2.mk dx dy).smul other_body.mass).sdiv
        (body.mass + other_body.mass))
      (((kmat.vel.smul body.mass) + (other_kmat.vel.smul other_body.mass)).sdiv
        (body.mass + other_body.mass))
  else
    Kinemat.zero

/-- Accumulator threaded through the per-step pair scan of `update`. -/
structure ScanAcc where
  forces : List (ℕ × Vec2)
  new_orbiters : List (Orbiter × ℕ × ℕ)
  skip_ids : List ℕ
  deriving DecidableEq, Repr

/-- The inner loop of `update`'s scan: one puller `(id, kmat, body)` visits
every entry of the table. -/
def scanInner (sq cbrt : ℚ → ℚ) (bodies : List Body) (id : ℕ) (kmat : Kinemat)
    (body : Body) (acc : ScanAcc) : List (ℕ × Kinemat) → Option ScanAcc
  | [] => some acc
  | (other_id, other_kmat) :: rest =>
    if other_id = id then scanInner sq cbrt bodies id kmat body acc rest
    else
      let dx := other_kmat.pos.x - kmat.pos.x
      let dy := other_kmat.pos.y - kmat.pos.y
      let dist_squared := dx * dx + dy * dy
      if dist_squared > MAX_PULL_DISTANCE * MAX_PULL_DISTANCE then
        scanInner sq cbrt bodies id kmat body acc rest
      else
        match bodies.get? other_id with
        | none => none
        | some other_body =>
          if other_body.immovable then scanInner sq cbrt bodies id kmat body acc rest
          else if dist_squared <
              (body.radius + other_body.radius) * (body.radius + other_body.radius) then
            let combined := Orbiter.mk (mergeBody cbrt body other_body)
              (mergeKinemat body other_body kmat other_kmat dx dy)
            scanInner sq cbrt bodies id kmat body
              { acc with
                skip_ids := other_id :: acc.skip_ids
                new_orbiters := acc.new_orbiters ++ [(combined, (id, other_id))] }
              rest
          else
            let force := -1 * GRAV_CONSTANT * ((body.mass * other_body.mass) / dist_squared)
            let norm := (Vec2.mk dx dy).sdiv (sq dist_squared)
            let forceV := norm.smul force
            scanInner sq cbrt bodies id kmat body
              { acc with
                forces := AList.insert other_id
                  (forceV + ((AList.lookup other_id acc.forces).getD Vec2.zero))
                  acc.forces }
              rest

/-- The outer loop of `update`'s scan over the whole table `all`. -/
def scanOuter (sq cbrt : ℚ → ℚ) (bodies : List Body)
    (all : List (ℕ × Kinemat)) (acc : ScanAcc) :
    List (ℕ × Kinemat) → Option ScanAcc
  | [] => some acc
  | (id, kmat) :: rest =>
    if acc.skip_ids.contains id then scanOuter sq cbrt bodies all acc rest
    else
      match bodies.get? id with
      | none => none
      | some body =>
        let debug_why_isnt_gravity_working : Bool := true
        if decide (body.mass > MIN_PULL_MASS) || debug_why_isnt_gravity_working then
          match scanInner sq cbrt bodies id kmat body acc all with
          | none => none
          | some acc' => scanOuter sq cbrt bodies all acc' rest
        else scanOuter sq cbrt bodies all acc rest

/-- The whole pair scan of one `update` call. -/
def scanStep (sq cbrt : ℚ → ℚ) (bodies : List Body)
    (kinemats : List (ℕ × Kinemat)) : Option ScanAcc :=
  scanOuter sq cbrt bodies kinemats ⟨[], [], []⟩ kinemats

/-- Add an orbiter (`SolarSystem::add_orbiter`); returns the assigned id. -/
def SolarSystem.add_orbiter (s : SolarSystem) (oer : Orbiter) : ℕ × SolarSystem :=
  (s.bodies.length,
    { s with
      bodies := s.bodies ++ [oer.body]
      kinemats := AList.insert s.bodies.length oer.kinemat s.kinemats })

/-- Apply the queued merges: remove both consumed ids, add the new orbiter. -/
def applyMerges : List (Orbiter × ℕ × ℕ) → SolarSystem → SolarSystem
  | [], s => s
  | (o, id1, id2) :: rest, s =>
    let s1 := { s with kinemats := AList.erase id2 (AList.erase id1 s.kinemats) }
    applyMerges rest (s1.add_orbiter o).2

/-- Apply the accumulated forces (`for (&id, &force) in forces.iter()`):
only ids present in `forces` are integrated. -/
def applyForces (bodies : List Body) (dt : ℚ) :
    List (ℕ × Vec2) → List (ℕ × Kinemat) → Option (List (ℕ × Kinemat))
  | [], kms => some kms
  | (id, force) :: rest, kms =>
    match AList.lookup id kms with
    | none => applyForces bodies dt rest kms
    | some kmat =>
      match bodies.get? id with
      | none => none
      | some body =>
        applyForces bodies dt rest
          (AList.insert id (kmat.update dt (force.sdiv body.mass)) kms)

/-- Save the current state (`SolarSystem::save`): push a copy of the live
table to the back; if the deque is too long, pop the front. -/
def SolarSystem.save (s : SolarSystem) : SolarSystem :=
  if (s.saves ++ [s.kinemats]).length > SAVE_COUNT then
    { s with saves := (s.saves ++ [s.kinemats]).tail }
  else { s with saves := s.saves ++ [s.kinemats] }

/-- The save-cadence check at the top of `update`. -/
def savePhase (s : SolarSystem) : SolarSystem :=
  if s.frames_elapsed % s.save_per = 0 then s.save else s

/-- One driver tick (`SolarSystem::update`). -/
def SolarSystem.update (sq cbrt : ℚ → ℚ) (dt : ℚ) (s : SolarSystem) :
    Option SolarSystem :=
  match s.mode with
  | SimulationMode.LoadingSave _ => some s
  | SimulationMode.Simulating =>
    let s1 := savePhase s
    match scanStep sq cbrt s1.bodies s1.kinemats with
    | none => none
    | some acc =>
      let s2 := applyMerges acc.new_orbiters s1
      match applyForces s2.bodies dt acc.forces s2.kinemats with
      | none => none
      | some kms =>
        some { s2 with kinemats := kms, frames_elapsed := s2.frames_elapsed + 1 }

/-- Build the `id → Orbiter` view of one table (`get_orbiters`' map step). -/
def collectOrbiters (bodies : List Body) :
    List (ℕ × Kinemat) → Option (List (ℕ × Orbiter))
  | [] => some []
  | (id, k) :: rest =>
    match bodies.get? id with
    | none => none
    | some b => (collectOrbiters bodies rest).map (fun l => (id, Orbiter.mk b k) :: l)

/-- Query the current orbiters (`SolarSystem::get_orbiters`). -/
def SolarSystem.get_orbiters (s : SolarSystem) : Option (List (ℕ × Orbiter)) :=
  match s.mode with
  | SimulationMode.Simulating => collectOrbiters s.bodies s.kinemats
  | SimulationMode.LoadingSave number =>
    match s.saves.get? number with
    | none => none
    | some tbl => collectOrbiters s.bodies tbl

/-- Get the current mode (`SolarSystem::get_mode`). -/
def SolarSystem.get_mode (s : SolarSystem) : SimulationMode := s.mode

/-- Turn on LoadingSave mode; also saves the current state
(`SolarSystem::enable_load`). -/
def SolarSystem.enable_load (s : SolarSystem) : Option SolarSystem :=
  match s.mode with
  | SimulationMode.Simulating =>
    let s1 := s.save
    some { s1 with mode := SimulationMode.LoadingSave (s1.saves.length - 1) }
  | SimulationMode.LoadingSave _ => none

/-- Two's-complement wrap of a 64-bit `isize` value: the release-profile
semantics of Rust integer overflow (`as isize` casts and overflowing `+`/`-`
reduce into `[-2^63, 2^63)`). -/
def wrapIsize (z : ℤ) : ℤ := (z + 2 ^ 63) % 2 ^ 64 - 2 ^ 63

/-- The index arithmetic of `change_load`: `number as isize + by` (each cast
and the addition wrapping as an `isize`), clamped by `.max(0)` and
`.min(len as isize - 1)`, then cast `as usize` (reinterpretation modulo
`2 ^ 64`). -/
def clampIndex (number : ℕ) (amount : ℤ) (len : ℕ) : ℕ :=
  ((min (max (wrapIsize (wrapIsize (number : ℤ) + amount)) 0)
      (wrapIsize (wrapIsize (len : ℤ) - 1))) % (2 ^ 64 : ℤ)).toNat

/-- Change which backup is viewed (`SolarSystem::change_load`). -/
def SolarSystem.change_load (amount : ℤ) (s : SolarSystem) : Option SolarSystem :=
  match s.mode with
  | SimulationMode.LoadingSave number =>
    if (s.saves.get? (clampIndex number amount s.saves.length)).isSome then
      some { s with
        mode := SimulationMode.LoadingSave (clampIndex number amount s.saves.length) }
    else some s
  | SimulationMode.Simulating => none

/-- The `Vec::retain` pass of `exit_load`: keep `bodies[i]` exactly when `i`
is a key of the restored table. -/
def retainBodies (kms : List (ℕ × Kinemat)) (bodies : List Body) : List Body :=
  ((List.range bodies.length).zip bodies).filterMap
    (fun p => if AList.contains p.1 kms then some p.2 else none)

/-- Exit LoadingSave mode (`SolarSystem::exit_load`): restore the selected
backup, prune the registry, truncate the history. -/
def SolarSystem.exit_load (s : SolarSystem) : Option SolarSystem :=
  match s.mode with
  | SimulationMode.LoadingSave number =>
    match s.saves.get? number with
    | none => none
    | some restore =>
      some { s with
        kinemats := restore
        bodies := retainBodies restore s.bodies
        mode := SimulationMode.Simulating
        saves := s.saves.take number }
  | SimulationMode.Simulating => none

/-- Construct a system (`SolarSystem::new`): seed orbiters through
`add_orbiter` in list order. -/
def SolarSystem.new (orbiters : List Orbiter) : SolarSystem :=
  orbiters.foldl (fun s o => (s.add_orbiter o).2)
    { bodies := []
      kinemats := []
      saves := []
      save_per := SAVE_EVERY
      frames_elapsed := 0
      mode := SimulationMode.Simulating }

/-- One driver operation on the engine. -/
inductive Op where
  | update (sq cbrt : ℚ → ℚ) (dt : ℚ) : Op
  | enableLoad : Op
  | changeLoad (amount : ℤ) : Op
  | exitLoad : Op

/-- Run one driver operation. -/
def applyOp : Op → SolarSystem → Option SolarSystem
  | Op.update sq cbrt dt, s => s.update sq cbrt dt
  | Op.enableLoad, s => s.enable_load
  | Op.changeLoad amount, s => s.change_load amount
  | Op.exitLoad, s => s.exit_load

/-- Run a list of driver operations; a panic anywhere gives `none`. -/
def runOps : List Op → SolarSystem → Option SolarSystem
  | [], s => some s
  | o :: rest, s =>
    match applyOp o s with
    | none => none
    | some s' => runOps rest s'

/-- Recognizer for the `exit_load` operation. -/
def Op.isExit : Op → Bool
  | Op.exitLoad => true
  | _ => false

/-- An operation list that never restores a rewind point. -/
def NoExit (ops : List Op) : Prop := ∀ o ∈ ops, o.isExit = false

/-- A state reachable from some seeded system by some driver run. -/
def Reachable (s : SolarSystem) : Prop :=
  ∃ orbiters ops, runOps ops (SolarSystem.new orbiters) = some s

/-- Every key of the map is below `n` (indexes a valid registry slot). -/
def keysBelow {α : Type} (n : ℕ) (m : List (ℕ × α)) : Prop :=
  ∀ p ∈ m, p.1 < n

/-- Registry invariant: the live table and every snapshot only hold ids that
index a valid `Body`. -/
def regInv (s : SolarSystem) : Prop :=
  keysBelow s.bodies.length s.kinemats ∧
    ∀ sv ∈ s.saves, keysBelow s.bodies.length sv

/-- Size/mode invariant: bounded history, and a viewed index in range. -/
def sizeInv (s : SolarSystem) : Prop :=
  s.saves.length ≤ SAVE_COUNT ∧
    ∀ i, s.mode = SimulationMode.LoadingSave i → i < s.saves.length

/-- A small test body of the given mass, radius and movability. -/
def mkBody (m r : ℚ) (imm : Bool) : Body := ⟨m, r, 0, 0, "b", imm⟩

/-- Two movable bodies below the pull-mass threshold, one unit apart. -/
def scene_small : SolarSystem :=
  SolarSystem.new
    [⟨mkBody 1 (1/10) false, ⟨⟨0, 0⟩, Vec2.zero⟩⟩,
     ⟨mkBody 1 (1/10) false, ⟨⟨1, 0⟩, Vec2.zero⟩⟩]

/-- Two overlapping movable bodies (radii 1, centers one unit apart). -/
def scene_merge : SolarSystem :=
  SolarSystem.new
    [⟨mkBody 1 1 false, ⟨⟨0, 0⟩, Vec2.zero⟩⟩,
     ⟨mkBody 2 1 false, ⟨⟨1, 0⟩, Vec2.zero⟩⟩]

/-- A single body coasting with velocity (1, 0). -/
def scene_lone : SolarSystem :=
  SolarSystem.new [⟨mkBody 1 1 false, ⟨⟨0, 0⟩, ⟨1, 0⟩⟩⟩]

/-- Two overlapping immovable bodies. -/
def scene_imm : SolarSystem :=
  SolarSystem.new
    [⟨mkBody 1 1 true, ⟨⟨0, 0⟩, Vec2.zero⟩⟩,
     ⟨mkBody 1 1 true, ⟨⟨1, 0⟩, Vec2.zero⟩⟩]

/-- The state `enable_load` produces from `scene_lone`. -/
def scene_one_viewing : SolarSystem :=
  ⟨[mkBody 1 1 false], [(0, ⟨⟨0, 0⟩, ⟨1, 0⟩⟩)], [[(0, ⟨⟨0, 0⟩, ⟨1, 0⟩⟩)]],
    1000, 0, SimulationMode.LoadingSave 0⟩

/-- The merge product of `scene_merge`'s two bodies (with `cbrt := id`). -/
def mergedBody : Body := mergeBody (fun x => x) (mkBody 1 1 false) (mkBody 2 1 false)

/-- The initial kinematic table of `scene_merge`. -/
def mergeTable0 : List (ℕ × Kinemat) :=
  [(0, ⟨⟨0, 0⟩, Vec2.zero⟩), (1, ⟨⟨1, 0⟩, Vec2.zero⟩)]

/-- The state one `update` produces from `scene_merge`. -/
def mergeScene : SolarSystem :=
  ⟨[mkBody 1 1 false, mkBody 2 1 false, mergedBody], [(2, Kinemat.zero)],
    [mergeTable0], 1000, 1, SimulationMode.Simulating⟩

/-- The state `enable_load` produces from `mergeScene`. -/
def viewScene : SolarSystem :=
  ⟨[mkBody 1 1 false, mkBody 2 1 false, mergedBody], [(2, Kinemat.zero)],
    [mergeTable0, [(2, Kinemat.zero)]], 1000, 1, SimulationMode.LoadingSave 1⟩

/-- The state `exit_load` produces from `viewScene`: the registry is pruned
down to the single merged body. -/
def exitScene : SolarSystem :=
  ⟨[mergedBody], [(2, Kinemat.zero)], [mergeTable0], 1000, 1,
    SimulationMode.Simulating⟩

/-- The merged orbiter queued by the scan on `scene_merge`. -/
def mergeCombined : Orbiter := ⟨mergedBody, Kinemat.zero⟩

/-- The scan result on `scene_merge` (with `sq := id`, `cbrt := id`). -/
def mergeScanAcc : ScanAcc := ⟨[], [(mergeCombined, (0, 1))], [1]⟩

theorem AList.lookup_insert_self {α : Type} (k : ℕ) (v : α) (m : List (ℕ × α)) :
    AList.lookup k (AList.insert k v m) = some v := by
  induction m with
  | nil => simp [AList.insert, AList.lookup]
  | cons p rest ih =>
    obtain ⟨k', v'⟩ := p
    by_cases h : k' = k
    · simp [AList.insert, AList.lookup, h]
    · simp [AList.insert, AList.lookup, h, ih]

theorem AList.lookup_insert_ne {α : Type} {j k : ℕ} (hne : k ≠ j) (v : α)
    (m : List (ℕ × α)) :
    AList.lookup j (AList.insert k v m) = AList.lookup j m := by
  induction m with
  | nil => simp [AList.insert, AList.lookup, hne]
  | cons p rest ih =>
    obtain ⟨k', v'⟩ := p
    by_cases h : k' = k
    · subst h
      simp [AList.insert, AList.lookup, hne]
    · simp only [AList.insert, if_neg h, AList.lookup]
      by_cases h2 : k' = j
      · simp [h2]
      · simp [h2, ih]

theorem AList.mem_insert {α : Type} {p : ℕ × α} {k : ℕ} {v : α}
    {m : List (ℕ × α)} (hp : p ∈ AList.insert k v m) : p = (k, v) ∨ p ∈ m := by
  induction m with
  | nil => simpa [AList.insert] using hp
  | cons q rest ih =>
    obtain ⟨k', v'⟩ := q
    by_cases h : k' = k
    · simp only [AList.insert, if_pos h] at hp
      rcases List.mem_cons.1 hp with h1 | h1
      · exact Or.inl h1
      · exact Or.inr (List.mem_cons.2 (Or.inr h1))
    · simp only [AList.insert, if_neg h] at hp
      rcases List.mem_cons.1 hp with h1 | h1
      · exact Or.inr (List.mem_cons.2 (Or.inl h1))
      · rcases ih h1 with h2 | h2
        · exact Or.inl h2
        · exact Or.inr (List.mem_cons.2 (Or.inr h2))

theorem AList.keys_nodup_insert {α : Type} {k : ℕ} {v : α} {m : List (ℕ × α)}
    (h : (m.map Prod.fst).Nodup) :
    ((AList.insert k v m).map Prod.fst).Nodup := by
  induction m with
  | nil => simp [AList.insert]
  | cons q rest ih =>
    obtain ⟨k', v'⟩ := q
    simp only [List.map_cons, List.nodup_cons] at h
    by_cases hk : k' = k
    · subst hk
      have heq : AList.insert k' v ((k', v') :: rest) = (k', v) :: rest := by
        simp [AList.insert]
      rw [heq]
      simp only [List.map_cons, List.nodup_cons]
      exact h
    · simp only [AList.insert, if_neg hk, List.map_cons, List.nodup_cons]
      refine ⟨?_, ih h.2⟩
      intro hmem
      rcases List.mem_map.1 hmem with ⟨p, hp, hfst⟩
      rcases AList.mem_insert hp with h1 | h1
      · subst h1
        exact hk hfst.symm
      · exact h.1 (List.mem_map.2 ⟨p, h1, hfst⟩)

theorem AList.lookup_eq_none_of_not_mem {α : Type} {k : ℕ}
    {m : List (ℕ × α)} (h : k ∉ m.map Prod.fst) : AList.lookup k m = none := by
  induction m with
  | nil => rfl
  | cons q rest ih =>
    obtain ⟨k', v'⟩ := q
    simp only [List.map_cons, List.mem_cons] at h
    push_neg at h
    simp only [AList.lookup, if_neg (fun hh : k' = k => h.1 hh.symm)]
    exact ih h.2

theorem AList.mem_of_lookup {α : Type} {k : ℕ} {v : α} :
    ∀ {m : List (ℕ × α)}, AList.lookup k m = some v → (k, v) ∈ m := by
  intro m
  induction m with
  | nil => intro h; cases h
  | cons q rest ih =>
    obtain ⟨k', v'⟩ := q
    intro h
    by_cases hk : k' = k
    · subst hk
      simp only [AList.lookup, if_pos rfl] at h
      cases h
      exact List.mem_cons.2 (Or.inl rfl)
    · simp only [AList.lookup, if_neg hk] at h
      exact List.mem_cons.2 (Or.inr (ih h))

theorem applyForces_isSome (bodies : List Body) (dt : ℚ) :
    ∀ (forces : List (ℕ × Vec2)) (kms : List (ℕ × Kinemat)),
      keysBelow bodies.length forces →
      (applyForces bodies dt forces kms).isSome := by
  intro forces
  induction forces with
  | nil => intro kms _; simp [applyForces]
  | cons p rest ih =>
    intro kms hkb
    obtain ⟨id, force⟩ := p
    have hid : id < bodies.length := hkb (id, force) (List.mem_cons.2 (Or.inl rfl))
    have hrest : keysBelow bodies.length rest := fun q hq =>
      hkb q (List.mem_cons.2 (Or.inr hq))
    simp only [applyForces]
    cases hk : AList.lookup id kms with
    | none => exact ih kms hrest
    | some kmat =>
      cases hb : bodies.get? id with
      | none =>
        rw [List.get?_eq_none] at hb
        omega
      | some body => exact ih _ hrest

theorem applyForces_lookup_of_not_mem (bodies : List Body) (dt : ℚ) {id : ℕ} :
    ∀ (forces : List (ℕ × Vec2)) (kms kms' : List (ℕ × Kinemat)),
      (∀ q ∈ forces, q.1 ≠ id) →
      applyForces bodies dt forces kms = some kms' →
      AList.lookup id kms' = AList.lookup id kms := by
  intro forces
  induction forces with
  | nil =>
    intro kms kms' _ heq
    simp only [applyForces] at heq
    cases heq
    rfl
  | cons p rest ih =>
    intro kms kms' hne heq
    obtain ⟨k0, f0⟩ := p
    have hk0 : k0 ≠ id := hne (k0, f0) (List.mem_cons.2 (Or.inl rfl))
    have hrest : ∀ q ∈ rest, q.1 ≠ id := fun q hq =>
      hne q (List.mem_cons.2 (Or.inr hq))
    simp only [applyForces] at heq
    cases hk : AList.lookup k0 kms with
    | none =>
      rw [hk] at heq
      exact ih kms kms' hrest heq
    | some kmat =>
      rw [hk] at heq
      cases hb : bodies.get? k0 with
      | none => rw [hb] at heq; cases heq
      | some body =>
        rw [hb] at heq
        rw [ih _ kms' hrest heq]
        exact AList.lookup_insert_ne hk0 _ kms

theorem applyForces_lookup_of_mem (bodies : List Body) (dt : ℚ) {id : ℕ}
    {f : Vec2} {k : Kinemat} {b : Body} :
    ∀ (forces : List (ℕ × Vec2)) (kms kms' : List (ℕ × Kinemat)),
      (forces.map Prod.fst).Nodup →
      AList.lookup id forces = some f →
      AList.lookup id kms = some k →
      bodies.get? id = some b →
      applyForces bodies dt forces kms = some kms' →
      AList.lookup id kms' = some (k.update dt (f.sdiv b.mass)) := by
  intro forces
  induction forces with
  | nil =>
    intro kms kms' _ hf
    cases hf
  | cons p rest ih =>
    intro kms kms' hnd hf hkm hb heq
    obtain ⟨k0, f0⟩ := p
    simp only [List.map_cons, List.nodup_cons] at hnd
    by_cases hk0 : k0 = id
    · subst hk0
      simp only [AList.lookup, if_pos rfl] at hf
      cases hf
      simp only [applyForces, hkm, hb] at heq
      have hrest : ∀ q ∈ rest, q.1 ≠ k0 := by
        intro q hq hq1
        exact hnd.1 (List.mem_map.2 ⟨q, hq, hq1⟩)
      rw [applyForces_lookup_of_not_mem bodies dt rest _ kms' hrest heq]
      exact AList.lookup_insert_self k0 _ kms
    · simp only [AList.lookup, if_neg hk0] at hf
      simp only [applyForces] at heq
      cases hk : AList.lookup k0 kms with
      | none =>
        rw [hk] at heq
        exact ih kms kms' hnd.2 hf hkm hb heq
      | some kmat =>
        rw [hk] at heq
        cases hb0 : bodies.get? k0 with
        | none => rw [hb0] at heq; cases heq
        | some body0 =>
          rw [hb0] at heq
          refine ih _ kms' hnd.2 hf ?_ hb heq
          rw [AList.lookup_insert_ne hk0 _ kms]
          exact hkm

theorem applyForces_keysBelow (bodies : List Body) (dt : ℚ) :
    ∀ (forces : List (ℕ × Vec2)) (kms kms' : List (ℕ × Kinemat)),
      keysBelow bodies.length kms →
      applyForces bodies dt forces kms = some kms' →
      keysBelow bodies.length kms' := by
  intro forces
  induction forces with
  | nil =>
    intro kms kms' hkb heq
    simp only [applyForces] at heq
    cases heq
    exact hkb
  | cons p rest ih =>
    intro kms kms' hkb heq
    obtain ⟨k0, f0⟩ := p
    simp only [applyForces] at heq
    cases hk : AList.lookup k0 kms with
    | none =>
      rw [hk] at heq
      exact ih kms kms' hkb heq
    | some kmat =>
      rw [hk] at heq
      cases hb : bodies.get? k0 with
      | none => rw [hb] at heq; cases heq
      | some body =>
        rw [hb] at heq
        refine ih _ kms' ?_ heq
        intro q hq
        rcases AList.mem_insert hq with h1 | h1
        · subst h1
          have := List.get?_eq_some.1 hb
          exact this.1
        · exact hkb q h1

theorem mergeKinemat_of_other_movable (body ob : Body) (kmat okmat : Kinemat)
    (dx dy : ℚ) (h : ob.immovable = false) :
    mergeKinemat body ob kmat okmat dx dy = Kinemat.zero := by
  simp [mergeKinemat, h]

theorem scanInner_zero_nodup (sq cbrt : ℚ → ℚ) (bodies : List Body) (id : ℕ)
    (kmat : Kinemat) (body : Body) :
    ∀ (l : List (ℕ × Kinemat)) (acc acc' : ScanAcc),
      scanInner sq cbrt bodies id kmat body acc l = some acc' →
      (∀ q ∈ acc.new_orbiters, q.1.kinemat = Kinemat.zero) →
      (acc.forces.map Prod.fst).Nodup →
      (∀ q ∈ acc'.new_orbiters, q.1.kinemat = Kinemat.zero) ∧
        (acc'.forces.map Prod.fst).Nodup := by
  intro l
  induction l with
  | nil =>
    intro acc acc' heq hz hnd
    simp only [scanInner] at heq
    cases heq
    exact ⟨hz, hnd⟩
  | cons p rest ih =>
    intro acc acc' heq hz hnd
    obtain ⟨other_id, other_kmat⟩ := p
    simp only [scanInner] at heq
    by_cases h1 : other_id = id
    · rw [if_pos h1] at heq
      exact ih acc acc' heq hz hnd
    · rw [if_neg h1] at heq
      by_cases h2 : (other_kmat.pos.x - kmat.pos.x) * (other_kmat.pos.x - kmat.pos.x) +
          (other_kmat.pos.y - kmat.pos.y) * (other_kmat.pos.y - kmat.pos.y) >
          MAX_PULL_DISTANCE * MAX_PULL_DISTANCE
      · rw [if_pos h2] at heq
        exact ih acc acc' heq hz hnd
      · rw [if_neg h2] at heq
        cases hb : bodies.get? other_id with
        | none => simp only [hb] at heq; cases heq
        | some ob =>
          simp only [hb] at heq
          by_cases h3 : ob.immovable = true
          · rw [if_pos h3] at heq
            exact ih acc acc' heq hz hnd
          · rw [if_neg h3] at heq
            have h3' : ob.immovable = false := by simpa using h3
            by_cases h4 : (other_kmat.pos.x - kmat.pos.x) * (other_kmat.pos.x - kmat.pos.x) +
                (other_kmat.pos.y - kmat.pos.y) * (other_kmat.pos.y - kmat.pos.y) <
                (body.radius + ob.radius) * (body.radius + ob.radius)
            · rw [if_pos h4] at heq
              refine ih _ acc' heq ?_ hnd
              intro q hq
              rcases List.mem_append.1 hq with hq1 | hq1
              · exact hz q hq1
              · rcases List.mem_singleton.1 hq1 with rfl
                exact mergeKinemat_of_other_movable body ob kmat other_kmat _ _ h3'
            · rw [if_neg h4] at heq
              refine ih _ acc' heq hz ?_
              exact AList.keys_nodup_insert hnd

theorem scanOuter_zero_nodup (sq cbrt : ℚ → ℚ) (bodies : List Body)
    (all : List (ℕ × Kinemat)) :
    ∀ (l : List (ℕ × Kinemat)) (acc acc' : ScanAcc),
      scanOuter sq cbrt bodies all acc l = some acc' →
      (∀ q ∈ acc.new_orbiters, q.1.kinemat = Kinemat.zero) →
      (acc.forces.map Prod.fst).Nodup →
      (∀ q ∈ acc'.new_orbiters, q.1.kinemat = Kinemat.zero) ∧
        (acc'.forces.map Prod.fst).Nodup := by
  intro l
  induction l with
  | nil =>
    intro acc acc' heq hz hnd
    simp only [scanOuter] at heq
    cases heq
    exact ⟨hz, hnd⟩
  | cons p rest ih =>
    intro acc acc' heq hz hnd
    obtain ⟨id, kmat⟩ := p
    simp only [scanOuter] at heq
    by_cases h1 : acc.skip_ids.contains id = true
    · rw [if_pos h1] at heq
      exact ih acc acc' heq hz hnd
    · rw [if_neg h1] at heq
      cases hb : bodies.get? id with
      | none => simp only [hb] at heq; cases heq
      | some body =>
        simp only [hb] at heq
        rw [if_pos (by simp)] at heq
        cases hs : scanInner sq cbrt bodies id kmat body acc all with
        | none => simp only [hs] at heq; cases heq
        | some acc1 =>
          simp only [hs] at heq
          obtain ⟨hz1, hnd1⟩ :=
            scanInner_zero_nodup sq cbrt bodies id kmat body all acc acc1 hs hz hnd
          exact ih acc1 acc' heq hz1 hnd1

theorem scanStep_zero_nodup (sq cbrt : ℚ → ℚ) (bodies : List Body)
    (kinemats : List (ℕ × Kinemat)) (acc : ScanAcc)
    (heq : scanStep sq cbrt bodies kinemats = some acc) :
    (∀ q ∈ acc.new_orbiters, q.1.kinemat = Kinemat.zero) ∧
      (acc.forces.map Prod.fst).Nodup := by
  exact scanOuter_zero_nodup sq cbrt bodies kinemats kinemats ⟨[], [], []⟩ acc heq
    (by intro q hq; cases hq) (by simp)

theorem scanInner_some_below (sq cbrt : ℚ → ℚ) (bodies : List Body) (id : ℕ)
    (kmat : Kinemat) (body : Body) :
    ∀ (l : List (ℕ × Kinemat)) (acc : ScanAcc),
      keysBelow bodies.length l →
      keysBelow bodies.length acc.forces →
      ∃ acc', scanInner sq cbrt bodies id kmat body acc l = some acc' ∧
        keysBelow bodies.length acc'.forces := by
  intro l
  induction l with
  | nil =>
    intro acc _ hf
    exact ⟨acc, rfl, hf⟩
  | cons p rest ih =>
    intro acc hl hf
    obtain ⟨other_id, other_kmat⟩ := p
    have hoid : other_id < bodies.length := hl (other_id, other_kmat)
      (List.mem_cons.2 (Or.inl rfl))
    have hrest : keysBelow bodies.length rest := fun q hq =>
      hl q (List.mem_cons.2 (Or.inr hq))
    obtain ⟨ob, hb⟩ : ∃ b, bodies.get? other_id = some b := by
      cases hbb : bodies.get? other_id with
      | none => rw [List.get?_eq_none] at hbb; omega
      | some b => exact ⟨b, rfl⟩
    simp only [scanInner, hb]
    by_cases h1 : other_id = id
    · rw [if_pos h1]
      exact ih acc hrest hf
    · rw [if_neg h1]
      by_cases h2 : (other_kmat.pos.x - kmat.pos.x) * (other_kmat.pos.x - kmat.pos.x) +
          (other_kmat.pos.y - kmat.pos.y) * (other_kmat.pos.y - kmat.pos.y) >
          MAX_PULL_DISTANCE * MAX_PULL_DISTANCE
      · rw [if_pos h2]
        exact ih acc hrest hf
      · rw [if_neg h2]
        by_cases h3 : ob.immovable = true
        · rw [if_pos h3]
          exact ih acc hrest hf
        · rw [if_neg h3]
          by_cases h4 : (other_kmat.pos.x - kmat.pos.x) * (other_kmat.pos.x - kmat.pos.x) +
              (other_kmat.pos.y - kmat.pos.y) * (other_kmat.pos.y - kmat.pos.y) <
              (body.radius + ob.radius) * (body.radius + ob.radius)
          · rw [if_pos h4]
            exact ih _ hrest hf
          · rw [if_neg h4]
            refine ih _ hrest ?_
            intro q hq
            rcases AList.mem_insert hq with h5 | h5
            · subst h5
              exact hoid
            · exact hf q h5

theorem scanOuter_some_below (sq cbrt : ℚ → ℚ) (bodies : List Body)
    (all : List (ℕ × Kinemat)) (hall : keysBelow bodies.length all) :
    ∀ (l : List (ℕ × Kinemat)) (acc : ScanAcc),
      keysBelow bodies.length l →
      keysBelow bodies.length acc.forces →
      ∃ acc', scanOuter sq cbrt bodies all acc l = some acc' ∧
        keysBelow bodies.length acc'.forces := by
  intro l
  induction l with
  | nil =>
    intro acc _ hf
    exact ⟨acc, rfl, hf⟩
  | cons p rest ih =>
    intro acc hl hf
    obtain ⟨id, kmat⟩ := p
    have hid : id < bodies.length := hl (id, kmat) (List.mem_cons.2 (Or.inl rfl))
    have hrest : keysBelow bodies.length rest := fun q hq =>
      hl q (List.mem_cons.2 (Or.inr hq))
    obtain ⟨body, hb⟩ : ∃ b, bodies.get? id = some b := by
      cases hbb : bodies.get? id with
      | none => rw [List.get?_eq_none] at hbb; omega
      | some b => exact ⟨b, rfl⟩
    simp only [scanOuter, hb]
    by_cases h1 : acc.skip_ids.contains id = true
    · rw [if_pos h1]
      exact ih acc hrest hf
    · rw [if_neg h1]
      rw [if_pos (by simp)]
      obtain ⟨acc1, hs, hf1⟩ :=
        scanInner_some_below sq cbrt bodies id kmat body all acc hall hf
      simp only [hs]
      exact ih acc1 hrest hf1

theorem scanStep_some_below (sq cbrt : ℚ → ℚ) (bodies : List Body)
    (kinemats : List (ℕ × Kinemat)) (hkb : keysBelow bodies.length kinemats) :
    ∃ acc, scanStep sq cbrt bodies kinemats = some acc ∧
      keysBelow bodies.length acc.forces := by
  exact scanOuter_some_below sq cbrt bodies kinemats hkb kinemats ⟨[], [], []⟩ hkb
    (by intro q hq; cases hq)

theorem keysBelow_mono {α : Type} {n m : ℕ} {l : List (ℕ × α)} (h : n ≤ m)
    (hk : keysBelow n l) : keysBelow m l :=
  fun p hp => lt_of_lt_of_le (hk p hp) h

theorem AList.mem_of_mem_erase {α : Type} {p : ℕ × α} {k : ℕ}
    {m : List (ℕ × α)} (h : p ∈ AList.erase k m) : p ∈ m :=
  (List.mem_filter.1 h).1

theorem applyMerges_fields (l : List (Orbiter × ℕ × ℕ)) :
    ∀ s : SolarSystem, (applyMerges l s).saves = s.saves ∧
      (applyMerges l s).mode = s.mode ∧
      (applyMerges l s).save_per = s.save_per ∧
      (applyMerges l s).frames_elapsed = s.frames_elapsed := by
  induction l with
  | nil => intro s; exact ⟨rfl, rfl, rfl, rfl⟩
  | cons q rest ih =>
    intro s
    obtain ⟨o, id1, id2⟩ := q
    simpa only [applyMerges, SolarSystem.add_orbiter] using
      ih { s with
        kinemats := AList.insert s.bodies.length o.kinemat
          (AList.erase id2 (AList.erase id1 s.kinemats))
        bodies := s.bodies ++ [o.body] }

theorem applyMerges_bodies (l : List (Orbiter × ℕ × ℕ)) :
    ∀ s : SolarSystem, s.bodies.length ≤ (applyMerges l s).bodies.length ∧
      ∀ i < s.bodies.length, (applyMerges l s).bodies.get? i = s.bodies.get? i := by
  induction l with
  | nil => intro s; exact ⟨le_refl _, fun i _ => rfl⟩
  | cons q rest ih =>
    intro s
    obtain ⟨o, id1, id2⟩ := q
    have step := ih { s with
      kinemats := AList.insert s.bodies.length o.kinemat
        (AList.erase id2 (AList.erase id1 s.kinemats))
      bodies := s.bodies ++ [o.body] }
    simp only [applyMerges, SolarSystem.add_orbiter]
    constructor
    · refine le_trans ?_ step.1
      simp
    · intro i hi
      rw [step.2 i (by simp; omega)]
      exact List.get?_append hi

theorem applyMerges_keysBelow (l : List (Orbiter × ℕ × ℕ)) :
    ∀ s : SolarSystem, keysBelow s.bodies.length s.kinemats →
      keysBelow (applyMerges l s).bodies.length (applyMerges l s).kinemats := by
  induction l with
  | nil => intro s h; exact h
  | cons q rest ih =>
    intro s h
    obtain ⟨o, id1, id2⟩ := q
    simp only [applyMerges, SolarSystem.add_orbiter]
    refine ih _ ?_
    intro p hp
    simp only [List.length_append, List.length_singleton]
    rcases AList.mem_insert hp with h1 | h1
    · subst h1
      omega
    · have := h p (AList.mem_of_mem_erase (AList.mem_of_mem_erase h1))
      omega

theorem save_eq_pop (s : SolarSystem)
    (hc : (s.saves ++ [s.kinemats]).length > SAVE_COUNT) :
    s.save = { s with saves := (s.saves ++ [s.kinemats]).tail } := by
  unfold SolarSystem.save
  rw [if_pos hc]

theorem save_eq_push (s : SolarSystem)
    (hc : ¬(s.saves ++ [s.kinemats]).length > SAVE_COUNT) :
    s.save = { s with saves := s.saves ++ [s.kinemats] } := by
  unfold SolarSystem.save
  rw [if_neg hc]

theorem save_fields (s : SolarSystem) :
    (s.save).bodies = s.bodies ∧ (s.save).kinemats = s.kinemats ∧
      (s.save).mode = s.mode ∧ (s.save).save_per = s.save_per ∧
      (s.save).frames_elapsed = s.frames_elapsed := by
  by_cases hc : (s.saves ++ [s.kinemats]).length > SAVE_COUNT
  · rw [save_eq_pop s hc]
    exact ⟨rfl, rfl, rfl, rfl, rfl⟩
  · rw [save_eq_push s hc]
    exact ⟨rfl, rfl, rfl, rfl, rfl⟩

theorem save_saves_mem (s : SolarSystem) :
    ∀ sv ∈ (s.save).saves, sv ∈ s.saves ∨ sv = s.kinemats := by
  intro sv hsv
  have hsub : sv ∈ s.saves ++ [s.kinemats] := by
    by_cases hc : (s.saves ++ [s.kinemats]).length > SAVE_COUNT
    · rw [save_eq_pop s hc] at hsv
      exact List.tail_subset _ hsv
    · rw [save_eq_push s hc] at hsv
      exact hsv
  rcases List.mem_append.1 hsub with h | h
  · exact Or.inl h
  · exact Or.inr (List.mem_singleton.1 h)

theorem save_saves_length (s : SolarSystem) (h : s.saves.length ≤ SAVE_COUNT) :
    (s.save).saves.length = min (s.saves.length + 1) SAVE_COUNT := by
  by_cases hc : (s.saves ++ [s.kinemats]).length > SAVE_COUNT
  · rw [save_eq_pop s hc]
    simp only [List.length_append, List.length_singleton] at hc
    simp only [List.length_tail, List.length_append, List.length_singleton]
    omega
  · rw [save_eq_push s hc]
    simp only [List.length_append, List.length_singleton] at hc ⊢
    omega

theorem save_saves_pos (s : SolarSystem) : 1 ≤ (s.save).saves.length := by
  have hcount : SAVE_COUNT = 1000 := rfl
  by_cases hc : (s.saves ++ [s.kinemats]).length > SAVE_COUNT
  · rw [save_eq_pop s hc]
    simp only [List.length_append, List.length_singleton] at hc
    simp only [List.length_tail, List.length_append, List.length_singleton]
    omega
  · rw [save_eq_push s hc]
    simp only [List.length_append, List.length_singleton]
    omega

theorem save_saves_last (s : SolarSystem) :
    (s.save).saves.get? ((s.save).saves.length - 1) = some s.kinemats := by
  have hcount : SAVE_COUNT = 1000 := rfl
  by_cases hc : (s.saves ++ [s.kinemats]).length > SAVE_COUNT
  · rw [save_eq_pop s hc]
    simp only [List.length_append, List.length_singleton] at hc
    cases hsv : s.saves with
    | nil =>
      rw [hsv] at hc
      simp at hc
      omega
    | cons a as =>
      have htail : ((a :: as) ++ [s.kinemats]).tail = as ++ [s.kinemats] := rfl
      show (((a :: as) ++ [s.kinemats]).tail).get?
        ((((a :: as) ++ [s.kinemats]).tail).length - 1) = some s.kinemats
      rw [htail]
      have hlen : (as ++ [s.kinemats]).length - 1 = as.length := by simp
      rw [hlen]
      exact List.get?_concat_length as s.kinemats
  · rw [save_eq_push s hc]
    show (s.saves ++ [s.kinemats]).get?
      ((s.saves ++ [s.kinemats]).length - 1) = some s.kinemats
    have hlen : (s.saves ++ [s.kinemats]).length - 1 = s.saves.length := by simp
    rw [hlen]
    exact List.get?_concat_length s.saves s.kinemats

theorem savePhase_fields (s : SolarSystem) :
    (savePhase s).bodies = s.bodies ∧ (savePhase s).kinemats = s.kinemats ∧
      (savePhase s).mode = s.mode ∧ (savePhase s).save_per = s.save_per ∧
      (savePhase s).frames_elapsed = s.frames_elapsed := by
  by_cases hc : s.frames_elapsed % s.save_per = 0
  · rw [show savePhase s = s.save from by simp [savePhase, hc]]
    exact save_fields s
  · rw [show savePhase s = s from by simp [savePhase, hc]]
    exact ⟨rfl, rfl, rfl, rfl, rfl⟩

theorem savePhase_saves_mem (s : SolarSystem) :
    ∀ sv ∈ (savePhase s).saves, sv ∈ s.saves ∨ sv = s.kinemats := by
  by_cases hc : s.frames_elapsed % s.save_per = 0
  · rw [show savePhase s = s.save from by simp [savePhase, hc]]
    exact save_saves_mem s
  · rw [show savePhase s = s from by simp [savePhase, hc]]
    exact fun sv hsv => Or.inl hsv

theorem savePhase_saves_le (s : SolarSystem) (h : s.saves.length ≤ SAVE_COUNT) :
    (savePhase s).saves.length ≤ SAVE_COUNT := by
  by_cases hc : s.frames_elapsed % s.save_per = 0
  · rw [show savePhase s = s.save from by simp [savePhase, hc]]
    rw [save_saves_length s h]
    omega
  · rw [show savePhase s = s from by simp [savePhase, hc]]
    exact h

theorem savePhase_regInv (s : SolarSystem) (h : regInv s) : regInv (savePhase s) := by
  obtain ⟨hb, hk, _, _, _⟩ := savePhase_fields s
  constructor
  · rw [hb, hk]
    exact h.1
  · intro sv hsv
    rw [hb]
    rcases savePhase_saves_mem s sv hsv with h1 | h1
    · exact h.2 sv h1
    · subst h1
      exact h.1

theorem update_ok (sq cbrt : ℚ → ℚ) (dt : ℚ) (s : SolarSystem)
    (hreg : regInv s) :
    ∃ s', s.update sq cbrt dt = some s' ∧ regInv s' ∧
      s.bodies.length ≤ s'.bodies.length ∧
      (∀ i < s.bodies.length, s'.bodies.get? i = s.bodies.get? i) ∧
      s'.mode = s.mode ∧
      (s.saves.length ≤ SAVE_COUNT → s'.saves.length ≤ SAVE_COUNT) := by
  cases hm : s.mode with
  | LoadingSave n =>
    refine ⟨s, ?_, hreg, le_refl _, fun i _ => rfl, hm, fun h => h⟩
    simp [SolarSystem.update, hm]
  | Simulating =>
    have hreg1 : regInv (savePhase s) := savePhase_regInv s hreg
    obtain ⟨hb1, hk1, hm1, _, _⟩ := savePhase_fields s
    obtain ⟨acc, hscan, hfb⟩ := scanStep_some_below sq cbrt (savePhase s).bodies
      (savePhase s).kinemats hreg1.1
    set s2 := applyMerges acc.new_orbiters (savePhase s) with hs2
    have hkb2 : keysBelow s2.bodies.length s2.kinemats :=
      applyMerges_keysBelow acc.new_orbiters (savePhase s) hreg1.1
    have hbod2 := applyMerges_bodies acc.new_orbiters (savePhase s)
    have hfld2 := applyMerges_fields acc.new_orbiters (savePhase s)
    have hfb2 : keysBelow s2.bodies.length acc.forces :=
      keysBelow_mono hbod2.1 hfb
    have hforce := applyForces_isSome s2.bodies dt acc.forces s2.kinemats hfb2
    cases hfk : applyForces s2.bodies dt acc.forces s2.kinemats with
    | none => rw [hfk] at hforce; cases hforce
    | some kms =>
      refine ⟨{ s2 with kinemats := kms, frames_elapsed := s2.frames_elapsed + 1 },
        ?_, ?_, ?_, ?_, ?_, ?_⟩
      · simp only [SolarSystem.update, hm, hscan, hfk]
      · constructor
        · exact applyForces_keysBelow s2.bodies dt acc.forces s2.kinemats kms hkb2 hfk
        · intro sv hsv
          have hsv2 : sv ∈ s2.saves := hsv
          rw [hfld2.1] at hsv2
          show keysBelow s2.bodies.length sv
          rcases savePhase_saves_mem s sv hsv2 with h1 | h1
          · refine keysBelow_mono ?_ (hreg.2 sv h1)
            refine le_trans ?_ hbod2.1
            rw [hb1]
          · subst h1
            refine keysBelow_mono ?_ hreg.1
            refine le_trans ?_ hbod2.1
            rw [hb1]
      · show s.bodies.length ≤ s2.bodies.length
        refine le_trans ?_ hbod2.1
        rw [hb1]
      · intro i hi
        show s2.bodies.get? i = s.bodies.get? i
        rw [hbod2.2 i (by rw [hb1]; exact hi), hb1]
      · show s2.mode = SimulationMode.Simulating
        rw [hfld2.2.1, hm1, hm]
      · intro h
        show s2.saves.length ≤ SAVE_COUNT
        rw [hfld2.1]
        exact savePhase_saves_le s h

theorem enable_load_eq (s : SolarSystem) (h : s.mode = SimulationMode.Simulating) :
    s.enable_load =
      some { s.save with mode := SimulationMode.LoadingSave ((s.save).saves.length - 1) } := by
  simp only [SolarSystem.enable_load, h]

theorem exit_load_eq (s : SolarSystem) (n : ℕ)
    (h : s.mode = SimulationMode.LoadingSave n) (restore : List (ℕ × Kinemat))
    (hr : s.saves.get? n = some restore) :
    s.exit_load = some { s with
      kinemats := restore
      bodies := retainBodies restore s.bodies
      mode := SimulationMode.Simulating
      saves := s.saves.take n } := by
  simp only [SolarSystem.exit_load, h, hr]

theorem wrapIsize_eq_self {z : ℤ} (h1 : -(2 ^ 63) ≤ z) (h2 : z < 2 ^ 63) :
    wrapIsize z = z := by
  have h63 : ((2 : ℤ) ^ 63) = 9223372036854775808 := by norm_num
  have h64 : ((2 : ℤ) ^ 64) = 18446744073709551616 := by norm_num
  unfold wrapIsize
  rw [Int.emod_eq_of_lt (by omega) (by omega)]
  omega

theorem wrapIsize_bounds (z : ℤ) :
    -(2 ^ 63) ≤ wrapIsize z ∧ wrapIsize z < 2 ^ 63 := by
  have h63 : ((2 : ℤ) ^ 63) = 9223372036854775808 := by norm_num
  have h64 : ((2 : ℤ) ^ 64) = 18446744073709551616 := by norm_num
  have hnn := Int.emod_nonneg (z + 2 ^ 63) (by norm_num : ((2 : ℤ) ^ 64) ≠ 0)
  have hlt := Int.emod_lt_of_pos (z + 2 ^ 63) (by norm_num : (0 : ℤ) < 2 ^ 64)
  unfold wrapIsize
  omega

theorem clampIndex_spec (n len : ℕ) (a : ℤ) (hn : n < len) (hlen : len ≤ SAVE_COUNT) :
    (clampIndex n a len : ℤ) =
      min (max (wrapIsize ((n : ℤ) + a)) 0) ((len : ℤ) - 1) ∧
      clampIndex n a len < len := by
  have hcount : SAVE_COUNT = 1000 := rfl
  have h63 : ((2 : ℤ) ^ 63) = 9223372036854775808 := by norm_num
  have hwn : wrapIsize (n : ℤ) = (n : ℤ) :=
    wrapIsize_eq_self (by omega) (by omega)
  have hwlen : wrapIsize (wrapIsize (len : ℤ) - 1) = (len : ℤ) - 1 := by
    rw [wrapIsize_eq_self (z := (len : ℤ)) (by omega) (by omega)]
    exact wrapIsize_eq_self (by omega) (by omega)
  have hwb := wrapIsize_bounds ((n : ℤ) + a)
  have h0 : (0 : ℤ) ≤ min (max (wrapIsize ((n : ℤ) + a)) 0) ((len : ℤ) - 1) := by
    refine le_min (le_max_right _ _) ?_
    omega
  have h1 : min (max (wrapIsize ((n : ℤ) + a)) 0) ((len : ℤ) - 1) ≤ (len : ℤ) - 1 :=
    min_le_right _ _
  have h2 : min (max (wrapIsize ((n : ℤ) + a)) 0) ((len : ℤ) - 1) < (2 : ℤ) ^ 64 := by
    have hp : ((2 : ℤ) ^ 64) = 18446744073709551616 := by norm_num
    omega
  have hmod : (min (max (wrapIsize ((n : ℤ) + a)) 0) ((len : ℤ) - 1)) % (2 ^ 64 : ℤ) =
      min (max (wrapIsize ((n : ℤ) + a)) 0) ((len : ℤ) - 1) :=
    Int.emod_eq_of_lt h0 h2
  unfold clampIndex
  rw [hwn, hwlen, hmod]
  constructor
  · exact Int.toNat_of_nonneg h0
  · omega

theorem change_load_some (a : ℤ) (s : SolarSystem) (n : ℕ)
    (h : s.mode = SimulationMode.LoadingSave n) :
    ∃ s', s.change_load a = some s' ∧ s'.bodies = s.bodies ∧
      s'.kinemats = s.kinemats ∧ s'.saves = s.saves ∧
      s'.save_per = s.save_per ∧ s'.frames_elapsed = s.frames_elapsed ∧
      (s'.mode = s.mode ∨
        (s'.mode = SimulationMode.LoadingSave (clampIndex n a s.saves.length) ∧
          clampIndex n a s.saves.length < s.saves.length)) := by
  by_cases hc : (s.saves.get? (clampIndex n a s.saves.length)).isSome
  · refine ⟨{ s with
      mode := SimulationMode.LoadingSave (clampIndex n a s.saves.length) },
      ?_, rfl, rfl, rfl, rfl, rfl, Or.inr ⟨rfl, ?_⟩⟩
    · simp only [SolarSystem.change_load, h]
      rw [if_pos hc]
    · rcases Option.isSome_iff_exists.1 hc with ⟨sv, hsv⟩
      exact (List.get?_eq_some.1 hsv).1
  · refine ⟨s, ?_, rfl, rfl, rfl, rfl, rfl, Or.inl rfl⟩
    simp only [SolarSystem.change_load, h]
    rw [if_neg hc]

theorem savePhase_saves_cases (s : SolarSystem) :
    (savePhase s).saves = s.saves ∨ (savePhase s).saves = (s.save).saves := by
  by_cases hc : s.frames_elapsed % s.save_per = 0
  · right
    rw [show savePhase s = s.save from by simp [savePhase, hc]]
  · left
    rw [show savePhase s = s from by simp [savePhase, hc]]

theorem update_some_shape (sq cbrt : ℚ → ℚ) (dt : ℚ) (s s' : SolarSystem)
    (heq : s.update sq cbrt dt = some s') :
    s'.mode = s.mode ∧ (s'.saves = s.saves ∨ s'.saves = (s.save).saves) ∧
      s.bodies.length ≤ s'.bodies.length ∧
      (∀ i < s.bodies.length, s'.bodies.get? i = s.bodies.get? i) := by
  cases hm : s.mode with
  | LoadingSave n =>
    have hval : s.update sq cbrt dt = some s := by
      simp only [SolarSystem.update, hm]
    rw [hval] at heq
    cases heq
    exact ⟨hm, Or.inl rfl, le_refl _, fun i _ => rfl⟩
  | Simulating =>
    cases hscan : scanStep sq cbrt (savePhase s).bodies (savePhase s).kinemats with
    | none =>
      have hval : s.update sq cbrt dt = none := by
        simp only [SolarSystem.update, hm, hscan]
      rw [hval] at heq
      cases heq
    | some acc =>
      set s2 := applyMerges acc.new_orbiters (savePhase s) with hs2
      cases hfk : applyForces s2.bodies dt acc.forces s2.kinemats with
      | none =>
        have hval : s.update sq cbrt dt = none := by
          simp only [SolarSystem.update, hm, hscan, hs2, hfk]
        rw [hval] at heq
        cases heq
      | some kms =>
        have hval : s.update sq cbrt dt =
            some { s2 with kinemats := kms, frames_elapsed := s2.frames_elapsed + 1 } := by
          simp only [SolarSystem.update, hm, hscan, hs2, hfk]
        rw [hval] at heq
        cases heq
        obtain ⟨hb1, _, hm1, _, _⟩ := savePhase_fields s
        have hfld2 := applyMerges_fields acc.new_orbiters (savePhase s)
        have hbod2 := applyMerges_bodies acc.new_orbiters (savePhase s)
        refine ⟨?_, ?_, ?_, ?_⟩
        · show s2.mode = SimulationMode.Simulating
          rw [hs2, hfld2.2.1, hm1, hm]
        · show s2.saves = s.saves ∨ s2.saves = (s.save).saves
          rw [hs2, hfld2.1]
          exact savePhase_saves_cases s
        · show s.bodies.length ≤ s2.bodies.length
          rw [hs2]
          refine le_trans ?_ hbod2.1
          rw [hb1]
        · intro i hi
          show s2.bodies.get? i = s.bodies.get? i
          rw [hs2, hbod2.2 i (by rw [hb1]; exact hi), hb1]

theorem applyOp_sizeInv (o : Op) (s s' : SolarSystem)
    (heq : applyOp o s = some s') (hsz : sizeInv s) : sizeInv s' := by
  obtain ⟨hlen, hmode⟩ := hsz
  cases o with
  | update sq cbrt dt =>
    simp only [applyOp] at heq
    obtain ⟨hm, hsv, _, _⟩ := update_some_shape sq cbrt dt s s' heq
    have hsl := save_saves_length s hlen
    constructor
    · rcases hsv with h | h <;> rw [h]
      · exact hlen
      · rw [hsl]
        exact min_le_right _ _
    · intro i hi
      rw [hm] at hi
      have hilt := hmode i hi
      rcases hsv with h | h <;> rw [h]
      · exact hilt
      · rw [hsl]
        exact lt_min (Nat.lt_succ_of_lt hilt) (lt_of_lt_of_le hilt hlen)
  | enableLoad =>
    simp only [applyOp] at heq
    cases hm : s.mode with
    | Simulating =>
      rw [enable_load_eq s hm] at heq
      cases heq
      constructor
      · show (s.save).saves.length ≤ SAVE_COUNT
        rw [save_saves_length s hlen]
        exact min_le_right _ _
      · intro i hi
        have hi' : SimulationMode.LoadingSave ((s.save).saves.length - 1) =
            SimulationMode.LoadingSave i := hi
        cases hi'
        show (s.save).saves.length - 1 < (s.save).saves.length
        have := save_saves_pos s
        omega
    | LoadingSave n =>
      simp only [SolarSystem.enable_load, hm] at heq
      cases heq
  | changeLoad a =>
    simp only [applyOp] at heq
    cases hm : s.mode with
    | Simulating =>
      simp only [SolarSystem.change_load, hm] at heq
      cases heq
    | LoadingSave n =>
      obtain ⟨s2, hcl, _, _, hs, _, _, hmode2⟩ := change_load_some a s n hm
      rw [hcl] at heq
      cases heq
      constructor
      · rw [hs]
        exact hlen
      · intro i hi
        rw [hs]
        rcases hmode2 with h | ⟨h, hlt⟩
        · rw [h, hm] at hi
          cases hi
          exact hmode _ hm
        · rw [h] at hi
          rw [SimulationMode.LoadingSave.injEq] at hi
          exact hi ▸ hlt
  | exitLoad =>
    simp only [applyOp] at heq
    cases hm : s.mode with
    | Simulating =>
      simp only [SolarSystem.exit_load, hm] at heq
      cases heq
    | LoadingSave n =>
      cases hr : s.saves.get? n with
      | none => simp only [SolarSystem.exit_load, hm, hr] at heq; cases heq
      | some restore =>
        rw [exit_load_eq s n hm restore hr] at heq
        cases heq
        constructor
        · show (s.saves.take n).length ≤ SAVE_COUNT
          rw [List.length_take]
          exact le_trans (min_le_right _ _) hlen
        · intro i hi
          cases hi

theorem runOps_sizeInv (ops : List Op) :
    ∀ s s', runOps ops s = some s' → sizeInv s → sizeInv s' := by
  induction ops with
  | nil =>
    intro s s' heq h
    cases heq
    exact h
  | cons o rest ih =>
    intro s s' heq h
    simp only [runOps] at heq
    cases ho : applyOp o s with
    | none => rw [ho] at heq; cases heq
    | some s1 =>
      rw [ho] at heq
      exact ih s1 s' heq (applyOp_sizeInv o s s1 ho h)

theorem foldl_add_fields (l : List Orbiter) :
    ∀ s : SolarSystem,
      (l.foldl (fun s o => (s.add_orbiter o).2) s).saves = s.saves ∧
      (l.foldl (fun s o => (s.add_orbiter o).2) s).mode = s.mode ∧
      (l.foldl (fun s o => (s.add_orbiter o).2) s).save_per = s.save_per ∧
      (l.foldl (fun s o => (s.add_orbiter o).2) s).frames_elapsed = s.frames_elapsed := by
  induction l with
  | nil => intro s; exact ⟨rfl, rfl, rfl, rfl⟩
  | cons o rest ih =>
    intro s
    simpa only [List.foldl_cons, SolarSystem.add_orbiter] using
      ih { s with
        bodies := s.bodies ++ [o.body]
        kinemats := AList.insert s.bodies.length o.kinemat s.kinemats }

theorem new_sizeInv (orbiters : List Orbiter) : sizeInv (SolarSystem.new orbiters) := by
  obtain ⟨hs, hm, _, _⟩ := foldl_add_fields orbiters
    { bodies := []
      kinemats := []
      saves := []
      save_per := SAVE_EVERY
      frames_elapsed := 0
      mode := SimulationMode.Simulating }
  constructor
  · show (SolarSystem.new orbiters).saves.length ≤ SAVE_COUNT
    rw [show (SolarSystem.new orbiters).saves = [] from hs]
    exact Nat.zero_le _
  · intro i hi
    rw [show (SolarSystem.new orbiters).mode = SimulationMode.Simulating from hm] at hi
    cases hi

theorem reachable_sizeInv (s : SolarSystem) (h : Reachable s) : sizeInv s := by
  obtain ⟨orbiters, ops, hrun⟩ := h
  exact runOps_sizeInv ops _ s hrun (new_sizeInv orbiters)

theorem add_orbiter_regInv (s : SolarSystem) (o : Orbiter) (h : regInv s) :
    regInv (s.add_orbiter o).2 := by
  constructor
  · intro p hp
    show p.1 < (s.bodies ++ [o.body]).length
    simp only [List.length_append, List.length_singleton]
    rcases AList.mem_insert hp with h1 | h1
    · subst h1
      omega
    · have := h.1 p h1
      omega
  · intro sv hsv
    refine keysBelow_mono ?_ (h.2 sv hsv)
    show s.bodies.length ≤ (s.bodies ++ [o.body]).length
    simp

theorem new_regInv (orbiters : List Orbiter) : regInv (SolarSystem.new orbiters) := by
  suffices hgen : ∀ (l : List Orbiter) (s : SolarSystem), regInv s →
      regInv (l.foldl (fun s o => (s.add_orbiter o).2) s) by
    refine hgen orbiters _ ⟨?_, ?_⟩
    · intro p hp
      cases hp
    · intro sv hsv
      cases hsv
  intro l
  induction l with
  | nil => intro s h; exact h
  | cons o rest ih =>
    intro s h
    exact ih _ (add_orbiter_regInv s o h)

theorem applyOp_regInv (o : Op) (s s' : SolarSystem) (hne : o.isExit = false)
    (heq : applyOp o s = some s') (hreg : regInv s) : regInv s' := by
  cases o with
  | update sq cbrt dt =>
    simp only [applyOp] at heq
    obtain ⟨s2, heq2, hreg2, _, _, _, _⟩ := update_ok sq cbrt dt s hreg
    rw [heq2] at heq
    cases heq
    exact hreg2
  | enableLoad =>
    simp only [applyOp] at heq
    cases hm : s.mode with
    | Simulating =>
      rw [enable_load_eq s hm] at heq
      cases heq
      obtain ⟨hb, hk, _, _, _⟩ := save_fields s
      constructor
      · show keysBelow (s.save).bodies.length (s.save).kinemats
        rw [hb, hk]
        exact hreg.1
      · intro sv hsv
        show keysBelow (s.save).bodies.length sv
        rw [hb]
        rcases save_saves_mem s sv hsv with h1 | h1
        · exact hreg.2 sv h1
        · subst h1
          exact hreg.1
    | LoadingSave n =>
      simp only [SolarSystem.enable_load, hm] at heq
      cases heq
  | changeLoad a =>
    simp only [applyOp] at heq
    cases hm : s.mode with
    | Simulating =>
      simp only [SolarSystem.change_load, hm] at heq
      cases heq
    | LoadingSave n =>
      obtain ⟨s2, hcl, hb, hk, hs, _, _, _⟩ := change_load_some a s n hm
      rw [hcl] at heq
      cases heq
      constructor
      · rw [hb, hk]
        exact hreg.1
      · intro sv hsv
        rw [hs] at hsv
        rw [hb]
        exact hreg.2 sv hsv
  | exitLoad => cases hne

theorem applyOp_bodies_prefix (o : Op) (s s' : SolarSystem) (hne : o.isExit = false)
    (heq : applyOp o s = some s') :
    s.bodies.length ≤ s'.bodies.length ∧
      (∀ i < s.bodies.length, s'.bodies.get? i = s.bodies.get? i) := by
  cases o with
  | update sq cbrt dt =>
    simp only [applyOp] at heq
    obtain ⟨_, _, hmono, hget⟩ := update_some_shape sq cbrt dt s s' heq
    exact ⟨hmono, hget⟩
  | enableLoad =>
    simp only [applyOp] at heq
    cases hm : s.mode with
    | Simulating =>
      rw [enable_load_eq s hm] at heq
      cases heq
      obtain ⟨hb, _, _, _, _⟩ := save_fields s
      constructor
      · show s.bodies.length ≤ (s.save).bodies.length
        rw [hb]
      · intro i hi
        show (s.save).bodies.get? i = s.bodies.get? i
        rw [hb]
    | LoadingSave n =>
      simp only [SolarSystem.enable_load, hm] at heq
      cases heq
  | changeLoad a =>
    simp only [applyOp] at heq
    cases hm : s.mode with
    | Simulating =>
      simp only [SolarSystem.change_load, hm] at heq
      cases heq
    | LoadingSave n =>
      obtain ⟨s2, hcl, hb, _, _, _, _, _⟩ := change_load_some a s n hm
      rw [hcl] at heq
      cases heq
      rw [hb]
      exact ⟨le_refl _, fun i _ => rfl⟩
  | exitLoad => cases hne

theorem runOps_bodies_prefix (ops : List Op) :
    ∀ s s', NoExit ops → runOps ops s = some s' →
      s.bodies.length ≤ s'.bodies.length ∧
        (∀ i < s.bodies.length, s'.bodies.get? i = s.bodies.get? i) := by
  induction ops with
  | nil =>
    intro s s' _ heq
    cases heq
    exact ⟨le_refl _, fun i _ => rfl⟩
  | cons o rest ih =>
    intro s s' hno heq
    simp only [runOps] at heq
    cases ho : applyOp o s with
    | none => rw [ho] at heq; cases heq
    | some s1 =>
      rw [ho] at heq
      have hno1 : o.isExit = false := hno o (List.mem_cons.2 (Or.inl rfl))
      have hnor : NoExit rest := fun q hq => hno q (List.mem_cons.2 (Or.inr hq))
      obtain ⟨h1, h2⟩ := applyOp_bodies_prefix o s s1 hno1 ho
      obtain ⟨h3, h4⟩ := ih s1 s' hnor heq
      refine ⟨le_trans h1 h3, ?_⟩
      intro i hi
      rw [h4 i (lt_of_lt_of_le hi h1), h2 i hi]

theorem runOps_regInv (ops : List Op) :
    ∀ s s', NoExit ops → runOps ops s = some s' → regInv s → regInv s' := by
  induction ops with
  | nil =>
    intro s s' _ heq h
    cases heq
    exact h
  | cons o rest ih =>
    intro s s' hno heq h
    simp only [runOps] at heq
    cases ho : applyOp o s with
    | none => rw [ho] at heq; cases heq
    | some s1 =>
      rw [ho] at heq
      have hno1 : o.isExit = false := hno o (List.mem_cons.2 (Or.inl rfl))
      have hnor : NoExit rest := fun q hq => hno q (List.mem_cons.2 (Or.inr hq))
      exact ih s1 s' hnor heq (applyOp_regInv o s s1 hno1 ho h)

theorem collectOrbiters_isSome (bodies : List Body) :
    ∀ tbl : List (ℕ × Kinemat), keysBelow bodies.length tbl →
      (collectOrbiters bodies tbl).isSome := by
  intro tbl
  induction tbl with
  | nil =>
    intro _
    rfl
  | cons p rest ih =>
    intro hkb
    obtain ⟨id, k⟩ := p
    have hid : id < bodies.length := hkb (id, k) (List.mem_cons.2 (Or.inl rfl))
    have hrest : keysBelow bodies.length rest := fun q hq =>
      hkb q (List.mem_cons.2 (Or.inr hq))
    obtain ⟨b, hb⟩ : ∃ b, bodies.get? id = some b := by
      cases hbb : bodies.get? id with
      | none => rw [List.get?_eq_none] at hbb; omega
      | some b => exact ⟨b, rfl⟩
    have hsome := ih hrest
    cases hc : collectOrbiters bodies rest with
    | none => rw [hc] at hsome; cases hsome
    | some l =>
      have hval : collectOrbiters bodies ((id, k) :: rest) =
          some ((id, Orbiter.mk b k) :: l) := by
        simp only [collectOrbiters, hb, hc, Option.map_some']
      rw [hval]
      rfl

theorem get_orbiters_isSome (s : SolarSystem) (hreg : regInv s) (hsz : sizeInv s) :
    (s.get_orbiters).isSome := by
  cases hm : s.mode with
  | Simulating =>
    simp only [SolarSystem.get_orbiters, hm]
    exact collectOrbiters_isSome s.bodies s.kinemats hreg.1
  | LoadingSave n =>
    have hn : n < s.saves.length := hsz.2 n hm
    obtain ⟨sv, hsv⟩ : ∃ sv, s.saves.get? n = some sv := by
      cases hg : s.saves.get? n with
      | none => rw [List.get?_eq_none] at hg; omega
      | some sv => exact ⟨sv, rfl⟩
    simp only [SolarSystem.get_orbiters, hm, hsv]
    exact collectOrbiters_isSome s.bodies sv (hreg.2 sv (List.get?_mem hsv))

end Orbital

namespace Orbital

theorem AList.lookup_isSome_of_mem_keys {α : Type} {k : ℕ} :
    ∀ {m : List (ℕ × α)}, k ∈ m.map Prod.fst → (AList.lookup k m).isSome := by
  intro m
  induction m with
  | nil => intro h; cases h
  | cons q rest ih =>
    intro h
    obtain ⟨k', v'⟩ := q
    by_cases hk : k' = k
    · simp [AList.lookup, hk]
    · simp only [List.map_cons, List.mem_cons] at h
      rcases h with h | h
      · exact absurd h.symm hk
      · simp only [AList.lookup, if_neg hk]
        exact ih h

theorem save_fifo (s : SolarSystem) (h : s.saves.length = SAVE_COUNT) :
    (s.save).saves = s.saves.tail ++ [s.kinemats] := by
  have hcount : SAVE_COUNT = 1000 := rfl
  have hc : (s.saves ++ [s.kinemats]).length > SAVE_COUNT := by
    simp only [List.length_append, List.length_singleton]
    omega
  rw [save_eq_pop s hc]
  show (s.saves ++ [s.kinemats]).tail = s.saves.tail ++ [s.kinemats]
  cases hsv : s.saves with
  | nil =>
    rw [hsv] at h
    simp at h
    omega
  | cons a as => rfl

theorem save_iterate_length (n : ℕ) :
    ∀ s : SolarSystem, s.saves.length ≤ SAVE_COUNT →
      ((SolarSystem.save)^[n] s).saves.length = min (s.saves.length + n) SAVE_COUNT := by
  induction n with
  | zero =>
    intro s h
    simp only [Function.iterate_zero, id_eq]
    omega
  | succ n ih =>
    intro s h
    rw [Function.iterate_succ_apply]
    have h1 := save_saves_length s h
    have h2 : (s.save).saves.length ≤ SAVE_COUNT := by
      rw [h1]
      exact min_le_right _ _
    rw [ih _ h2, h1]
    omega

/-- C1: the spec claims an active id with mass at or below `MIN_PULL_MASS`
initiates no scan and contributes no force.  The code's
`debug_why_isnt_gravity_working` flag short-circuits the mass check, so in
`scene_small` (two movable bodies of mass 1 ≤ MIN_PULL_MASS, one unit apart)
body 0 is accelerated by body 1's pull: after one step its velocity is
`(GRAV_CONSTANT, 0)` — a sub-threshold mass acted as a puller. -/
theorem Vec2.add_def (a b : Vec2) : a + b = ⟨a.x + b.x, a.y + b.y⟩ := rfl

theorem two_body_scanStep (sq cbrt : ℚ → ℚ) (b1 b2 : Body) (k1 k2 : Kinemat)
    (h2 : b2.immovable = false)
    (hmax : (k2.pos.x - k1.pos.x) * (k2.pos.x - k1.pos.x) +
        (k2.pos.y - k1.pos.y) * (k2.pos.y - k1.pos.y) ≤
      MAX_PULL_DISTANCE * MAX_PULL_DISTANCE)
    (hcol : (k2.pos.x - k1.pos.x) * (k2.pos.x - k1.pos.x) +
        (k2.pos.y - k1.pos.y) * (k2.pos.y - k1.pos.y) <
      (b1.radius + b2.radius) * (b1.radius + b2.radius)) :
    scanStep sq cbrt [b1, b2] [(0, k1), (1, k2)] =
      some ⟨[], [(⟨mergeBody cbrt b1 b2, Kinemat.zero⟩, (0, 1))], [1]⟩ := by
  have hd2max : ¬((k2.pos.x - k1.pos.x) * (k2.pos.x - k1.pos.x) +
      (k2.pos.y - k1.pos.y) * (k2.pos.y - k1.pos.y) >
      MAX_PULL_DISTANCE * MAX_PULL_DISTANCE) := not_lt.mpr hmax
  have himm : ¬(b2.immovable = true) := by simp [h2]
  have hinner : scanInner sq cbrt [b1, b2] 0 k1 b1 ⟨[], [], []⟩ [(0, k1), (1, k2)] =
      some ⟨[], [(⟨mergeBody cbrt b1 b2, Kinemat.zero⟩, (0, 1))], [1]⟩ := by
    simp [scanInner, hd2max, himm, hcol, mergeKinemat, h2]
  simp [scanStep, scanOuter, hinner]

theorem two_body_merge_step (sq cbrt : ℚ → ℚ) (dt : ℚ) (b1 b2 : Body)
    (k1 k2 : Kinemat) (h2 : b2.immovable = false)
    (hmax : (k2.pos.x - k1.pos.x) * (k2.pos.x - k1.pos.x) +
        (k2.pos.y - k1.pos.y) * (k2.pos.y - k1.pos.y) ≤
      MAX_PULL_DISTANCE * MAX_PULL_DISTANCE)
    (hcol : (k2.pos.x - k1.pos.x) * (k2.pos.x - k1.pos.x) +
        (k2.pos.y - k1.pos.y) * (k2.pos.y - k1.pos.y) <
      (b1.radius + b2.radius) * (b1.radius + b2.radius)) :
    (SolarSystem.new [⟨b1, k1⟩, ⟨b2, k2⟩]).update sq cbrt dt =
      some ⟨[b1, b2, mergeBody cbrt b1 b2], [(2, Kinemat.zero)],
        [[(0, k1), (1, k2)]], 1000, 1, SimulationMode.Simulating⟩ := by
  have hscan := two_body_scanStep sq cbrt b1 b2 k1 k2 h2 hmax hcol
  have hnew : SolarSystem.new [⟨b1, k1⟩, ⟨b2, k2⟩] =
      ⟨[b1, b2], [(0, k1), (1, k2)], [], 1000, 0, SimulationMode.Simulating⟩ := rfl
  rw [hnew]
  simp [SolarSystem.update, savePhase, SolarSystem.save, SAVE_COUNT, hscan,
    applyMerges, AList.erase, AList.insert, SolarSystem.add_orbiter, applyForces]

theorem merge_step_eq :
    scene_merge.update (fun x => x) (fun x => x) 1 = some mergeScene :=
  two_body_merge_step (fun x => x) (fun x => x) 1 (mkBody 1 1 false)
    (mkBody 2 1 false) ⟨⟨0, 0⟩, Vec2.zero⟩ ⟨⟨1, 0⟩, Vec2.zero⟩ rfl
    (by norm_num [MAX_PULL_DISTANCE, mkBody]) (by norm_num [mkBody])

theorem view_step_eq : mergeScene.enable_load = some viewScene := by
  rw [enable_load_eq mergeScene rfl, save_eq_push mergeScene (by decide)]
  rfl

theorem exit_step_eq : viewScene.exit_load = some exitScene := by
  rw [exit_load_eq viewScene 1 rfl [(2, Kinemat.zero)] rfl]
  rfl

theorem merge_view_run_eq :
    runOps [Op.update (fun x => x) (fun x => x) 1, Op.enableLoad]
      scene_merge = some viewScene := by
  simp only [runOps, applyOp, merge_step_eq, view_step_eq]

theorem merge_run_eq :
    runOps [Op.update (fun x => x) (fun x => x) 1, Op.enableLoad, Op.exitLoad]
      scene_merge = some exitScene := by
  simp only [runOps, applyOp, merge_step_eq, view_step_eq, exit_step_eq]

theorem lone_scan :
    scanStep (fun x => x) (fun x => x) (savePhase scene_lone).bodies
      (savePhase scene_lone).kinemats = some ⟨[], [], []⟩ := by
  simp [scene_lone, mkBody, SolarSystem.new, SolarSystem.add_orbiter,
    AList.insert, savePhase, SolarSystem.save, SAVE_COUNT, scanStep, scanOuter,
    scanInner]

/-- C1: the spec claims an active id with mass at or below `MIN_PULL_MASS`
initiates no scan and contributes no force.  The code's
`debug_why_isnt_gravity_working` flag short-circuits the mass check, so in
`scene_small` (two movable bodies of mass 1 ≤ MIN_PULL_MASS, one unit apart)
body 0 is accelerated by body 1's pull: after one step its velocity is
`(GRAV_CONSTANT, 0)` — a sub-threshold mass acted as a puller. -/
theorem c1_sub_threshold_mass_still_pulls :
    (1 : ℚ) ≤ MIN_PULL_MASS ∧ GRAV_CONSTANT ≠ 0 ∧
      (scene_small.update (fun x => x) (fun x => x) 1).map
          (fun s' => AList.lookup 0 s'.kinemats) =
        some (some ⟨⟨GRAV_CONSTANT, 0⟩, ⟨GRAV_CONSTANT, 0⟩⟩) := by
  refine ⟨by norm_num [MIN_PULL_MASS], by norm_num [GRAV_CONSTANT], ?_⟩
  norm_num [scene_small, mkBody, SolarSystem.new, SolarSystem.add_orbiter,
    SolarSystem.update, savePhase, SolarSystem.save, SAVE_COUNT, scanStep,
    scanOuter, scanInner, applyMerges, applyForces, AList.insert, AList.lookup,
    AList.erase, Kinemat.update, Vec2.smul, Vec2.sdiv, Vec2.zero, Vec2.add_def,
    MAX_PULL_DISTANCE, MIN_PULL_MASS, GRAV_CONSTANT, mergeKinemat, mergeBody]

/-- C2 counterexample: after a merge, `enable_load` then `exit_load` prunes
the registry; the record at id 0 changes from the original mass-1 body to the
mass-3 merge product, and the registry shrinks to one slot (so the next
`add_orbiter` would return the already-assigned id 1). -/
theorem c2_exit_load_rewrites_id_zero :
    runOps [Op.update (fun x => x) (fun x => x) 1, Op.enableLoad, Op.exitLoad]
        scene_merge = some exitScene ∧
      (exitScene.bodies.get? 0).map Body.mass = some 3 ∧
      (scene_merge.bodies.get? 0).map Body.mass = some 1 ∧
      exitScene.bodies.length = 1 ∧ scene_merge.bodies.length = 2 :=
  ⟨merge_run_eq, by norm_num [exitScene, mergedBody, mergeBody, mkBody],
    rfl, rfl, rfl⟩

/-- C2 amended: across every sequence of engine operations that does not
restore a rewind point (no `exit_load`), the registry is append-only — every
already-assigned id keeps exactly its Body record, the registry never
shrinks, and `add_orbiter` always returns the next fresh index. -/
theorem c2_registry_append_only_without_exit_load (ops : List Op)
    (s s' : SolarSystem) (hno : NoExit ops) (hrun : runOps ops s = some s') :
    s.bodies.length ≤ s'.bodies.length ∧
      (∀ i < s.bodies.length, s'.bodies.get? i = s.bodies.get? i) ∧
      (∀ o : Orbiter, (s'.add_orbiter o).1 = s'.bodies.length) := by
  obtain ⟨h1, h2⟩ := runOps_bodies_prefix ops s s' hno hrun
  exact ⟨h1, h2, fun o => rfl⟩

/-- C2 witness: one `enable_load` on the one-body system. -/
theorem c2_registry_append_only_without_exit_load_witness :
    NoExit [Op.enableLoad] ∧
      runOps [Op.enableLoad] scene_lone = some scene_one_viewing ∧
      scene_lone.bodies.length ≤ scene_one_viewing.bodies.length :=
  ⟨fun o ho => by rcases List.mem_singleton.1 ho with rfl; rfl, rfl,
    (c2_registry_append_only_without_exit_load [Op.enableLoad] scene_lone
      scene_one_viewing
      (fun o ho => by rcases List.mem_singleton.1 ho with rfl; rfl) rfl).1⟩

/-- C3: `exit_load` runs `saves.truncate(number)`, which drops the restored
snapshot itself: starting from the one-body system, `enable_load` (history
length 1, viewing index 0) followed by `exit_load` leaves the history empty,
contradicting the claim that the entry at index 0 remains present. -/
theorem c3_exit_load_drops_restored_snapshot :
    scene_lone.enable_load = some scene_one_viewing ∧
      scene_one_viewing.mode = SimulationMode.LoadingSave 0 ∧
      scene_one_viewing.saves.length = 1 ∧
      (scene_one_viewing.exit_load).map (fun s2 => s2.saves.length) = some 0 :=
  ⟨rfl, rfl, rfl, rfl⟩

/-- C4 counterexample: a driver obeying every mode precondition (one step,
then `enable_load` from Simulating, then `exit_load` on the valid newest
index) reaches a state where `get_orbiters` aborts: the restored table still
maps id 2, but the pruned registry has length 1. -/
theorem c4_get_orbiters_aborts_after_exit_load :
    runOps [Op.update (fun x => x) (fun x => x) 1, Op.enableLoad, Op.exitLoad]
        scene_merge = some exitScene ∧
      exitScene.get_orbiters = none :=
  ⟨merge_run_eq, rfl⟩

/-- C4 amended: in every state reachable without `exit_load`, the engine is
total: `update` and `get_orbiters` always succeed, and `enable_load` and
`change_load` succeed whenever their mode precondition holds. -/
theorem c4_operations_total_without_exit_load (orbiters : List Orbiter)
    (ops : List Op) (s : SolarSystem) (hno : NoExit ops)
    (hrun : runOps ops (SolarSystem.new orbiters) = some s) :
    (∀ sq cbrt dt, (s.update sq cbrt dt).isSome) ∧
      (s.get_orbiters).isSome ∧
      (s.mode = SimulationMode.Simulating → (s.enable_load).isSome) ∧
      (∀ i a, s.mode = SimulationMode.LoadingSave i → (s.change_load a).isSome) := by
  have hreg : regInv s := runOps_regInv ops _ s hno hrun (new_regInv orbiters)
  have hsz : sizeInv s := runOps_sizeInv ops _ s hrun (new_sizeInv orbiters)
  refine ⟨?_, get_orbiters_isSome s hreg hsz, ?_, ?_⟩
  · intro sq cbrt dt
    obtain ⟨s2, heq, _⟩ := update_ok sq cbrt dt s hreg
    rw [heq]
    rfl
  · intro hm
    rw [enable_load_eq s hm]
    rfl
  · intro i a hm
    obtain ⟨s2, heq, _⟩ := change_load_some a s i hm
    rw [heq]
    rfl

/-- C4 witness: one `enable_load` on the one-body system. -/
theorem c4_operations_total_without_exit_load_witness :
    NoExit [Op.enableLoad] ∧
      runOps [Op.enableLoad]
          (SolarSystem.new [⟨mkBody 1 1 false, ⟨⟨0, 0⟩, ⟨1, 0⟩⟩⟩]) =
        some scene_one_viewing ∧
      (scene_one_viewing.get_orbiters).isSome :=
  ⟨fun o ho => by rcases List.mem_singleton.1 ho with rfl; rfl, rfl,
    (c4_operations_total_without_exit_load
      [⟨mkBody 1 1 false, ⟨⟨0, 0⟩, ⟨1, 0⟩⟩⟩] [Op.enableLoad] scene_one_viewing
      (fun o ho => by rcases List.mem_singleton.1 ho with rfl; rfl) rfl).2.1⟩

/-- C5 counterexample: a lone body with velocity (1, 0) accumulates no force
entry, so the step never calls `Kinemat::update` on it: after `update(1)` its
position is still (0, 0), not the claimed `pos + vel·dt = (1, 0)`. -/
theorem c5_zero_force_orbiter_not_integrated :
    (scene_lone.update (fun x => x) (fun x => x) 1).map
        (fun s' => AList.lookup 0 s'.kinemats) =
      some (some ⟨⟨0, 0⟩, ⟨1, 0⟩⟩) ∧
      (⟨0, 0⟩ : Vec2) ≠ (⟨0, 0⟩ : Vec2) + (⟨1, 0⟩ : Vec2).smul 1 := by
  constructor
  · norm_num [scene_lone, mkBody, SolarSystem.new, SolarSystem.add_orbiter,
      SolarSystem.update, savePhase, SolarSystem.save, SAVE_COUNT, scanStep,
      scanOuter, scanInner, applyMerges, applyForces, AList.insert,
      AList.lookup, AList.erase]
  · norm_num [Vec2.add_def, Vec2.smul]

/-- C5 amended: after merges are applied, the step integrates exactly the
orbiters having an entry in the accumulated force map: such an orbiter is
advanced by `Kinemat.update dt (force / mass)`, while an active orbiter with
no force entry keeps its position and velocity unchanged for the step. -/
theorem c5_integration_only_forced_orbiters (sq cbrt : ℚ → ℚ) (dt : ℚ)
    (s : SolarSystem) (acc : ScanAcc) (kms : List (ℕ × Kinemat))
    (hm : s.mode = SimulationMode.Simulating)
    (hscan : scanStep sq cbrt (savePhase s).bodies (savePhase s).kinemats = some acc)
    (hforce : applyForces (applyMerges acc.new_orbiters (savePhase s)).bodies dt
      acc.forces (applyMerges acc.new_orbiters (savePhase s)).kinemats = some kms) :
    s.update sq cbrt dt = some { applyMerges acc.new_orbiters (savePhase s) with
      kinemats := kms
      frames_elapsed := (applyMerges acc.new_orbiters (savePhase s)).frames_elapsed + 1 } ∧
      (∀ id, AList.lookup id acc.forces = none →
        AList.lookup id kms =
          AList.lookup id (applyMerges acc.new_orbiters (savePhase s)).kinemats) ∧
      (∀ id f k b, AList.lookup id acc.forces = some f →
        AList.lookup id (applyMerges acc.new_orbiters (savePhase s)).kinemats = some k →
        (applyMerges acc.new_orbiters (savePhase s)).bodies.get? id = some b →
        AList.lookup id kms = some (k.update dt (f.sdiv b.mass))) := by
  have hnd := (scanStep_zero_nodup sq cbrt _ _ acc hscan).2
  refine ⟨?_, ?_, ?_⟩
  · simp only [SolarSystem.update, hm, hscan, hforce]
  · intro id hnone
    refine applyForces_lookup_of_not_mem _ dt acc.forces _ kms ?_ hforce
    intro q hq hq1
    have hmem : id ∈ acc.forces.map Prod.fst := List.mem_map.2 ⟨q, hq, hq1⟩
    have hsome := AList.lookup_isSome_of_mem_keys hmem
    rw [hnone] at hsome
    cases hsome
  · intro id f k b hf hk hb
    exact applyForces_lookup_of_mem _ dt acc.forces _ kms hnd hf hk hb hforce

/-- C5 witness: the lone coasting body — the scan yields an empty force map
and its kinemat is untouched by the integration phase. -/
theorem c5_integration_only_forced_orbiters_witness :
    scene_lone.mode = SimulationMode.Simulating ∧
      scanStep (fun x => x) (fun x => x) (savePhase scene_lone).bodies
          (savePhase scene_lone).kinemats = some ⟨[], [], []⟩ ∧
      AList.lookup 0 ((savePhase scene_lone).kinemats) =
        AList.lookup 0 (applyMerges (⟨[], [], []⟩ : ScanAcc).new_orbiters
          (savePhase scene_lone)).kinemats :=
  ⟨rfl, lone_scan,
    (c5_integration_only_forced_orbiters (fun x => x) (fun x => x) 1 scene_lone
      ⟨[], [], []⟩ (savePhase scene_lone).kinemats rfl lone_scan rfl).2.1 0 rfl⟩

/-- C6: from any Simulating state, `enable_load` immediately followed by
`exit_load` succeeds and restores the live table exactly — every active id's
position and velocity are equal to their values at the moment `enable_load`
was called — and the mode is Simulating again. -/
theorem c6_enable_then_exit_roundtrip (s : SolarSystem)
    (h : s.mode = SimulationMode.Simulating) :
    ∃ s1 s2, s.enable_load = some s1 ∧ s1.exit_load = some s2 ∧
      s2.kinemats = s.kinemats ∧ s2.mode = SimulationMode.Simulating := by
  have h1 := enable_load_eq s h
  have hmode1 : ({ s.save with
      mode := SimulationMode.LoadingSave ((s.save).saves.length - 1) } :
      SolarSystem).mode = SimulationMode.LoadingSave ((s.save).saves.length - 1) := rfl
  have hr : ({ s.save with
      mode := SimulationMode.LoadingSave ((s.save).saves.length - 1) } :
      SolarSystem).saves.get? ((s.save).saves.length - 1) = some s.kinemats :=
    save_saves_last s
  have h2 := exit_load_eq _ ((s.save).saves.length - 1) hmode1 s.kinemats hr
  exact ⟨_, _, h1, h2, rfl, rfl⟩

/-- C6 witness: the round trip on the one-body system. -/
theorem c6_enable_then_exit_roundtrip_witness :
    scene_lone.mode = SimulationMode.Simulating ∧
      ∃ s1 s2, scene_lone.enable_load = some s1 ∧ s1.exit_load = some s2 ∧
        s2.kinemats = scene_lone.kinemats ∧ s2.mode = SimulationMode.Simulating :=
  ⟨rfl, c6_enable_then_exit_roundtrip scene_lone rfl⟩

/-- C7: in every reachable state the history holds at most `SAVE_COUNT`
entries; a save from a full history evicts exactly the oldest entry (FIFO);
and more than `SAVE_COUNT` consecutive saves leave the length at exactly
`SAVE_COUNT`. -/
theorem c7_history_bounded (s : SolarSystem) (h : Reachable s) :
    s.saves.length ≤ SAVE_COUNT ∧
      (s.saves.length = SAVE_COUNT →
        (s.save).saves = s.saves.tail ++ [s.kinemats]) ∧
      ∀ n, SAVE_COUNT < n →
        ((SolarSystem.save)^[n] s).saves.length = SAVE_COUNT := by
  have hsz := reachable_sizeInv s h
  refine ⟨hsz.1, fun hfull => save_fifo s hfull, ?_⟩
  intro n hn
  rw [save_iterate_length n s hsz.1]
  omega

/-- C7 witness: the empty system is reachable. -/
theorem c7_history_bounded_witness :
    Reachable (SolarSystem.new []) ∧
      (SolarSystem.new []).saves.length ≤ SAVE_COUNT :=
  ⟨⟨[], [], rfl⟩, (c7_history_bounded _ ⟨[], [], rfl⟩).1⟩

/-- C9 counterexample: the claim quantifies over every delta, but
`number as isize + by` overflows for deltas near `isize::MAX`.  Under the
release (two's-complement wrap) semantics modelled here, viewing index 1 of a
two-entry history, `change_load (2^63 - 1)` wraps `1 + (2^63 - 1)` to
`-2^63`, which clamps to index 0 — not the claimed clamp
`min (max (1 + delta) 0) (len - 1) = 1` (a debug build panics instead; either
way the claimed behavior fails). -/
theorem c9_isize_overflow_misclamps :
    runOps [Op.update (fun x => x) (fun x => x) 1, Op.enableLoad]
        scene_merge = some viewScene ∧
      viewScene.mode = SimulationMode.LoadingSave 1 ∧
      viewScene.saves.length = 2 ∧
      (viewScene.change_load (2 ^ 63 - 1)).map (fun s' => s'.mode) =
        some (SimulationMode.LoadingSave 0) ∧
      min (max ((1 : ℤ) + (2 ^ 63 - 1)) 0) ((2 : ℤ) - 1) = 1 ∧
      SimulationMode.LoadingSave 0 ≠ SimulationMode.LoadingSave 1 := by
  refine ⟨merge_view_run_eq, rfl, rfl, ?_, by norm_num, by decide⟩
  rfl

/-- C9 amended: while viewing snapshot `i` in a reachable state,
`change_load(delta)` always succeeds and changes only the mode: the viewed
index becomes the `isize`-wrapped sum `wrapIsize (i + delta)` clamped to
`[0, history_length − 1]`, always a valid history index; whenever `i + delta`
does not overflow an `isize` (every practical delta) this is exactly
`i + delta` clamped to `[0, history_length − 1]`. -/
theorem c9_change_load_clamps (s : SolarSystem) (i : ℕ) (a : ℤ)
    (hreach : Reachable s) (hm : s.mode = SimulationMode.LoadingSave i) :
    ∃ s', s.change_load a = some s' ∧
      s'.mode = SimulationMode.LoadingSave (clampIndex i a s.saves.length) ∧
      (clampIndex i a s.saves.length : ℤ) =
        min (max (wrapIsize ((i : ℤ) + a)) 0) ((s.saves.length : ℤ) - 1) ∧
      clampIndex i a s.saves.length < s.saves.length ∧
      ((-(2 ^ 63 : ℤ) ≤ (i : ℤ) + a ∧ ((i : ℤ) + a) < 2 ^ 63) →
        (clampIndex i a s.saves.length : ℤ) =
          min (max ((i : ℤ) + a) 0) ((s.saves.length : ℤ) - 1)) ∧
      s'.bodies = s.bodies ∧ s'.kinemats = s.kinemats ∧ s'.saves = s.saves ∧
      s'.save_per = s.save_per ∧ s'.frames_elapsed = s.frames_elapsed := by
  have hsz := reachable_sizeInv s hreach
  have hi : i < s.saves.length := hsz.2 i hm
  obtain ⟨hspec, hlt⟩ := clampIndex_spec i s.saves.length a hi hsz.1
  have hsome : (s.saves.get? (clampIndex i a s.saves.length)).isSome := by
    rw [List.get?_eq_get hlt]
    rfl
  refine ⟨{ s with
    mode := SimulationMode.LoadingSave (clampIndex i a s.saves.length) },
    ?_, rfl, hspec, hlt, ?_, rfl, rfl, rfl, rfl, rfl⟩
  · simp only [SolarSystem.change_load, hm]
    rw [if_pos hsome]
  · intro hrange
    rw [hspec, wrapIsize_eq_self hrange.1 hrange.2]

/-- C9 witness: viewing index 0 of a one-entry history, `change_load 5` does
not overflow, so it clamps exactly: back to index 0, nothing else changed. -/
theorem c9_change_load_clamps_witness :
    Reachable scene_one_viewing ∧
      scene_one_viewing.mode = SimulationMode.LoadingSave 0 ∧
      ∃ s', scene_one_viewing.change_load 5 = some s' ∧
        s'.mode = SimulationMode.LoadingSave
          (clampIndex 0 5 scene_one_viewing.saves.length) ∧
        (clampIndex 0 5 scene_one_viewing.saves.length : ℤ) =
          min (max (wrapIsize ((0 : ℤ) + 5)) 0)
            ((scene_one_viewing.saves.length : ℤ) - 1) ∧
        clampIndex 0 5 scene_one_viewing.saves.length <
          scene_one_viewing.saves.length ∧
        ((-(2 ^ 63 : ℤ) ≤ (0 : ℤ) + 5 ∧ ((0 : ℤ) + 5) < 2 ^ 63) →
          (clampIndex 0 5 scene_one_viewing.saves.length : ℤ) =
            min (max ((0 : ℤ) + 5) 0) ((scene_one_viewing.saves.length : ℤ) - 1)) ∧
        s'.bodies = scene_one_viewing.bodies ∧
        s'.kinemats = scene_one_viewing.kinemats ∧
        s'.saves = scene_one_viewing.saves ∧
        s'.save_per = scene_one_viewing.save_per ∧
        s'.frames_elapsed = scene_one_viewing.frames_elapsed :=
  ⟨⟨[⟨mkBody 1 1 false, ⟨⟨0, 0⟩, ⟨1, 0⟩⟩⟩], [Op.enableLoad], rfl⟩, rfl,
    c9_change_load_clamps scene_one_viewing 0 5
      ⟨[⟨mkBody 1 1 false, ⟨⟨0, 0⟩, ⟨1, 0⟩⟩⟩], [Op.enableLoad], rfl⟩ rfl⟩

/-- C10: every merged orbiter queued by the per-step scan has the zero
kinemat — position (0, 0) and velocity (0, 0) — because the scan skips any
immovable `other` before the collision test, so the only branch of the merge
rule producing a mass-weighted kinemat (movable puller, immovable other) is
unreachable. -/
theorem c10_merged_kinemat_zero (sq cbrt : ℚ → ℚ) (bodies : List Body)
    (kinemats : List (ℕ × Kinemat)) (acc : ScanAcc) (q : Orbiter × ℕ × ℕ)
    (hscan : scanStep sq cbrt bodies kinemats = some acc)
    (hq : q ∈ acc.new_orbiters) :
    q.1.kinemat = Kinemat.zero :=
  (scanStep_zero_nodup sq cbrt bodies kinemats acc hscan).1 q hq

/-- C10 witness: the merge queued for the two overlapping movable bodies of
`scene_merge` carries the zero kinemat. -/
theorem c10_merged_kinemat_zero_witness :
    scanStep (fun x => x) (fun x => x) scene_merge.bodies scene_merge.kinemats =
      some mergeScanAcc ∧
      (mergeCombined, ((0 : ℕ), (1 : ℕ))) ∈ mergeScanAcc.new_orbiters ∧
      mergeCombined.kinemat = Kinemat.zero :=
  ⟨two_body_scanStep (fun x => x) (fun x => x) (mkBody 1 1 false)
      (mkBody 2 1 false) ⟨⟨0, 0⟩, Vec2.zero⟩ ⟨⟨1, 0⟩, Vec2.zero⟩ rfl
      (by norm_num [MAX_PULL_DISTANCE, mkBody]) (by norm_num [mkBody]),
    List.mem_singleton.2 rfl,
    c10_merged_kinemat_zero (fun x => x) (fun x => x) scene_merge.bodies
      scene_merge.kinemats mergeScanAcc (mergeCombined, (0, 1))
      (two_body_scanStep (fun x => x) (fun x => x) (mkBody 1 1 false)
        (mkBody 2 1 false) ⟨⟨0, 0⟩, Vec2.zero⟩ ⟨⟨1, 0⟩, Vec2.zero⟩ rfl
        (by norm_num [MAX_PULL_DISTANCE, mkBody]) (by norm_num [mkBody]))
      (List.mem_singleton.2 rfl)⟩

/-- C8 counterexample: two overlapping *immovable* bodies never merge — each
scan skips the other at the immovable check — so after one step both original
ids are still active, contradicting the unconditional collision claim. -/
theorem c8_immovable_pair_never_merges :
    (scene_imm.update (fun x => x) (fun x => x) 1).map
        (fun s' => (AList.contains 0 s'.kinemats, AList.contains 1 s'.kinemats)) =
      some (true, true) ∧
      (scene_imm.bodies.get? 0).map Body.radius = some 1 ∧
      (scene_imm.bodies.get? 1).map Body.radius = some 1 := by
  refine ⟨?_, rfl, rfl⟩
  norm_num [scene_imm, mkBody, SolarSystem.new, SolarSystem.add_orbiter,
    SolarSystem.update, savePhase, SolarSystem.save, SAVE_COUNT, scanStep,
    scanOuter, scanInner, applyMerges, applyForces, AList.insert, AList.lookup,
    AList.contains, AList.erase, MAX_PULL_DISTANCE]

theorem two_body_scanStep_swap (sq cbrt : ℚ → ℚ) (b1 b2 : Body)
    (k1 k2 : Kinemat) (h1 : b1.immovable = false) (h2 : b2.immovable = true)
    (hmax : (k2.pos.x - k1.pos.x) * (k2.pos.x - k1.pos.x) +
        (k2.pos.y - k1.pos.y) * (k2.pos.y - k1.pos.y) ≤
      MAX_PULL_DISTANCE * MAX_PULL_DISTANCE)
    (hcol : (k2.pos.x - k1.pos.x) * (k2.pos.x - k1.pos.x) +
        (k2.pos.y - k1.pos.y) * (k2.pos.y - k1.pos.y) <
      (b1.radius + b2.radius) * (b1.radius + b2.radius)) :
    scanStep sq cbrt [b1, b2] [(0, k1), (1, k2)] =
      some ⟨[], [(⟨mergeBody cbrt b2 b1, Kinemat.zero⟩, (1, 0))], [0]⟩ := by
  have hd2max : ¬((k2.pos.x - k1.pos.x) * (k2.pos.x - k1.pos.x) +
      (k2.pos.y - k1.pos.y) * (k2.pos.y - k1.pos.y) >
      MAX_PULL_DISTANCE * MAX_PULL_DISTANCE) := not_lt.mpr hmax
  have hsym : (k1.pos.x - k2.pos.x) * (k1.pos.x - k2.pos.x) +
      (k1.pos.y - k2.pos.y) * (k1.pos.y - k2.pos.y) =
      (k2.pos.x - k1.pos.x) * (k2.pos.x - k1.pos.x) +
      (k2.pos.y - k1.pos.y) * (k2.pos.y - k1.pos.y) := by ring
  have hd2max' : ¬((k1.pos.x - k2.pos.x) * (k1.pos.x - k2.pos.x) +
      (k1.pos.y - k2.pos.y) * (k1.pos.y - k2.pos.y) >
      MAX_PULL_DISTANCE * MAX_PULL_DISTANCE) := by
    rw [hsym]
    exact not_lt.mpr hmax
  have hcol' : (k1.pos.x - k2.pos.x) * (k1.pos.x - k2.pos.x) +
      (k1.pos.y - k2.pos.y) * (k1.pos.y - k2.pos.y) <
      (b2.radius + b1.radius) * (b2.radius + b1.radius) := by
    rw [hsym, show (b2.radius + b1.radius) * (b2.radius + b1.radius) =
      (b1.radius + b2.radius) * (b1.radius + b2.radius) from by ring]
    exact hcol
  have himm1 : ¬(b1.immovable = true) := by simp [h1]
  have hinner0 : scanInner sq cbrt [b1, b2] 0 k1 b1 ⟨[], [], []⟩
      [(0, k1), (1, k2)] = some ⟨[], [], []⟩ := by
    simp [scanInner, hd2max, h2]
  have hinner1 : scanInner sq cbrt [b1, b2] 1 k2 b2 ⟨[], [], []⟩
      [(0, k1), (1, k2)] =
      some ⟨[], [(⟨mergeBody cbrt b2 b1, Kinemat.zero⟩, (1, 0))], [0]⟩ := by
    simp [scanInner, hd2max', himm1, hcol', mergeKinemat, h1]
  simp [scanStep, scanOuter, hinner0, hinner1]

theorem two_body_merge_step_swap (sq cbrt : ℚ → ℚ) (dt : ℚ) (b1 b2 : Body)
    (k1 k2 : Kinemat) (h1 : b1.immovable = false) (h2 : b2.immovable = true)
    (hmax : (k2.pos.x - k1.pos.x) * (k2.pos.x - k1.pos.x) +
        (k2.pos.y - k1.pos.y) * (k2.pos.y - k1.pos.y) ≤
      MAX_PULL_DISTANCE * MAX_PULL_DISTANCE)
    (hcol : (k2.pos.x - k1.pos.x) * (k2.pos.x - k1.pos.x) +
        (k2.pos.y - k1.pos.y) * (k2.pos.y - k1.pos.y) <
      (b1.radius + b2.radius) * (b1.radius + b2.radius)) :
    (SolarSystem.new [⟨b1, k1⟩, ⟨b2, k2⟩]).update sq cbrt dt =
      some ⟨[b1, b2, mergeBody cbrt b2 b1], [(2, Kinemat.zero)],
        [[(0, k1), (1, k2)]], 1000, 1, SimulationMode.Simulating⟩ := by
  have hscan := two_body_scanStep_swap sq cbrt b1 b2 k1 k2 h1 h2 hmax hcol
  have hnew : SolarSystem.new [⟨b1, k1⟩, ⟨b2, k2⟩] =
      ⟨[b1, b2], [(0, k1), (1, k2)], [], 1000, 0, SimulationMode.Simulating⟩ := rfl
  rw [hnew]
  simp [SolarSystem.update, savePhase, SolarSystem.save, SAVE_COUNT, hscan,
    applyMerges, AList.erase, AList.insert, SolarSystem.add_orbiter, applyForces]

/-- C8 amended: for a two-body system whose bodies are not both immovable and
whose centers start closer than the sum of the radii and within the maximum
pull distance, one step merges them: both original ids disappear, a single
new id 2 is active with the zero kinemat, and its mass is exactly `m1 + m2`. -/
theorem c8_overlap_merges_unless_both_immovable (sq cbrt : ℚ → ℚ) (dt : ℚ)
    (b1 b2 : Body) (k1 k2 : Kinemat)
    (hmov : b1.immovable = false ∨ b2.immovable = false)
    (hmax : (k2.pos.x - k1.pos.x) * (k2.pos.x - k1.pos.x) +
        (k2.pos.y - k1.pos.y) * (k2.pos.y - k1.pos.y) ≤
      MAX_PULL_DISTANCE * MAX_PULL_DISTANCE)
    (hcol : (k2.pos.x - k1.pos.x) * (k2.pos.x - k1.pos.x) +
        (k2.pos.y - k1.pos.y) * (k2.pos.y - k1.pos.y) <
      (b1.radius + b2.radius) * (b1.radius + b2.radius)) :
    ∃ s', (SolarSystem.new [⟨b1, k1⟩, ⟨b2, k2⟩]).update sq cbrt dt = some s' ∧
      AList.lookup 0 s'.kinemats = none ∧
      AList.lookup 1 s'.kinemats = none ∧
      s'.kinemats = [(2, Kinemat.zero)] ∧
      (s'.bodies.get? 2).map Body.mass = some (b1.mass + b2.mass) := by
  cases hb2 : b2.immovable with
  | false =>
    exact ⟨_, two_body_merge_step sq cbrt dt b1 b2 k1 k2 hb2 hmax hcol,
      rfl, rfl, rfl, rfl⟩
  | true =>
    have hb1 : b1.immovable = false := by
      rcases hmov with h | h
      · exact h
      · rw [h] at hb2
        cases hb2
    refine ⟨_, two_body_merge_step_swap sq cbrt dt b1 b2 k1 k2 hb1 hb2 hmax hcol,
      rfl, rfl, rfl, ?_⟩
    show some (b2.mass + b1.mass) = some (b1.mass + b2.mass)
    exact congrArg some (add_comm b2.mass b1.mass)

/-- C8 witness: a movable mass-1 body overlapping an immovable mass-2 body
(radii 1, centers one unit apart) — the newly covered mixed case. -/
theorem c8_overlap_merges_unless_both_immovable_witness :
    ((mkBody 1 1 false).immovable = false ∨ (mkBody 2 1 true).immovable = false) ∧
      ∃ s', (SolarSystem.new [⟨mkBody 1 1 false, ⟨⟨0, 0⟩, Vec2.zero⟩⟩,
          ⟨mkBody 2 1 true, ⟨⟨1, 0⟩, Vec2.zero⟩⟩]).update
            (fun x => x) (fun x => x) 1 = some s' ∧
        AList.lookup 0 s'.kinemats = none ∧
        AList.lookup 1 s'.kinemats = none ∧
        s'.kinemats = [(2, Kinemat.zero)] ∧
        (s'.bodies.get? 2).map Body.mass =
          some ((mkBody 1 1 false).mass + (mkBody 2 1 true).mass) :=
  ⟨Or.inl rfl, c8_overlap_merges_unless_both_immovable (fun x => x) (fun x => x)
    1 (mkBody 1 1 false) (mkBody 2 1 true) ⟨⟨0, 0⟩, Vec2.zero⟩
    ⟨⟨1, 0⟩, Vec2.zero⟩ (Or.inl rfl)
    (by norm_num [MAX_PULL_DISTANCE, mkBody]) (by norm_num [mkBody])⟩

end Orbital
